import Mathlib

/-!
# Raft-3D: the replicated domain state machine

A shallow embedding of `raftstore/fsm.go`, `raftstore/store.go` and the request
handlers of `main.go`, followed by the properties of the specification that
are checked against it.

Modelling conventions.

* Go's `int` is the 64-bit two's complement integer: values are `Int`s, and
  every arithmetic operation of the source is followed by `wrapInt`.
* A Go `map[string]T` is a finite map `GoMap T`; two maps are equal exactly
  when they hold the same entries. `main` allocates the three maps of the
  FSM, and `FSM.Apply` never replaces a map, so the maps it writes to are
  allocated. The nil map, which reads like the empty map, is identified with
  it: only decoding a JSON `null` produces one, and a snapshot spells `null`
  only for a map that was nil already.
* Go strings held by the state machine come out of `encoding/json`, which
  coerces every string to valid UTF-8; they are Lean `String`s.
* Bytes handed to `encoding/json` are represented by the JSON value they
  spell (`Bytes.json`), or by `Bytes.invalid` when the JSON scanner rejects
  them. Decoding follows the rules documented for `json.Unmarshal`.
* `raft.Apply` is modelled for a request served alone. When the call
  succeeds the entry is appended to the log and applied to the local FSM
  before the future resolves without error; when it fails (the node does not
  lead, or loses leadership) nothing is appended. Which calls succeed is up to
  the surroundings of the node and is a parameter of the store (`Raft.commits`):
  every call can fail whatever the fate of the calls before it, so the two
  submissions of one request can end differently.
-/

namespace Raft3D

/-! ## Go `int` -/

/-- Smallest value of a 64-bit Go `int`. -/
def minInt : Int := -9223372036854775808

/-- Largest value of a 64-bit Go `int`. -/
def maxInt : Int := 9223372036854775807

/-- The integers a Go `int` can hold. -/
def InRange (x : Int) : Prop := minInt ≤ x ∧ x ≤ maxInt

instance (x : Int) : Decidable (InRange x) := by
  unfold InRange; infer_instance

/-- Reduction of a mathematical integer to the `int` with the same low 64 bits. -/
def wrapInt (x : Int) : Int :=
  (x + 9223372036854775808) % 18446744073709551616 - 9223372036854775808

/-- Go's `a + b` on `int`. -/
def intAdd (a b : Int) : Int := wrapInt (a + b)

/-- Go's `a - b` on `int`. -/
def intSub (a b : Int) : Int := wrapInt (a - b)

/-! ## Go maps -/

/-- An allocated `map[string]T`. -/
abbrev GoMap (α : Type) := Finmap (fun _ : String => α)

/-! ## JSON values and `encoding/json` decoding -/

/-- A JSON value. `num n` is a number written as an integer literal of value
`n`; `float` is any number literal with a fraction or an exponent. The members
of an object are kept in the order in which they are written. -/
inductive Json where
  | null
  | bool (b : Bool)
  | num (n : Int)
  | float
  | str (s : String)
  | arr (elems : List Json)
  | obj (members : List (String × Json))

/-- Input of a JSON decoder: bytes the scanner rejects, or the value they spell. -/
inductive Bytes where
  | invalid
  | json (v : Json)

/-- Case folding of one rune of an object key, as `encoding/json` compares
keys with field names: ASCII letters regardless of case, with U+017F and
U+212A in the fold orbits of `s` and `k`. -/
def foldRune (c : Char) : Char :=
  if 97 ≤ c.toNat ∧ c.toNat ≤ 122 then Char.ofNat (c.toNat - 32)
  else if c.toNat = 383 then Char.ofNat 83
  else if c.toNat = 8490 then Char.ofNat 75
  else c

/-- Whether object key `key` selects the struct field named `name`. -/
def keyMatches (key name : String) : Bool :=
  key.data.map foldRune == name.data.map foldRune

/-- Decoding a JSON value into a `string`: a JSON string is stored, `null`
leaves the target alone, anything else is a type error. The second component
is `true` when no error is recorded. -/
def storeString (cur : String) : Json → String × Bool
  | .str s => (s, true)
  | .null => (cur, true)
  | _ => (cur, false)

/-- Decoding a JSON value into an `int`: an integer literal in range is
stored, `null` leaves the target alone, anything else is a type error. -/
def storeInt (cur : Int) : Json → Int × Bool
  | .num n => if minInt ≤ n ∧ n ≤ maxInt then (n, true) else (cur, false)
  | .null => (cur, true)
  | _ => (cur, false)

/-- Decoding a JSON value into a struct: the members of an object are
processed in order, each one stored into the field its key selects; a type
error in one member is recorded and decoding continues. -/
def storeStruct {α : Type} (setField : α → String → Json → α × Bool) (cur : α) :
    Json → α × Bool
  | .obj members =>
    members.foldl
      (fun acc kv => let r := setField acc.1 kv.1 kv.2; (r.1, acc.2 && r.2))
      (cur, true)
  | .null => (cur, true)
  | _ => (cur, false)

/-- Decoding a JSON value into an allocated map: the existing entries are
kept, and every member of the object is decoded into a fresh element that is
then stored under the member's key (also when the element recorded a type
error). `null` makes the map nil, which reads as the empty map. -/
def storeMap {α : Type} (elem : Json → α × Bool) (cur : GoMap α) : Json → GoMap α × Bool
  | .obj members =>
    members.foldl
      (fun acc kv => let r := elem kv.2; (acc.1.insert kv.1 r.1, acc.2 && r.2))
      (cur, true)
  | .null => (∅, true)
  | _ => (cur, false)

/-- Go's `json.Unmarshal(data, &v)`, and `json.NewDecoder(r).Decode(&v)` on
a stream spelling `data`: the value of `v` afterwards and whether the
returned error is nil. -/
def Unmarshal {α : Type} (store : α → Json → α × Bool) (data : Bytes) (v : α) : α × Bool :=
  match data with
  | .invalid => (v, false)
  | .json j => store v j

/-! ## Domain types (`raftstore/fsm.go`) -/

structure Printer where
  ID : String
  Company : String
  Model : String
deriving DecidableEq, Repr

structure Filament where
  ID : String
  Type_ : String
  Color : String
  TotalWeightInGrams : Int
  RemainingWeightInGrams : Int
deriving DecidableEq, Repr

structure PrintJob where
  ID : String
  PrinterID : String
  FilamentID : String
  FilePath : String
  PrintWeightInGrams : Int
  Status : String
deriving DecidableEq, Repr

/-- The replicated state. The mutex of the Go struct carries no data. -/
structure FSM where
  Printers : GoMap Printer
  Filaments : GoMap Filament
  PrintJobs : GoMap PrintJob
deriving DecidableEq

/-- Zero value of `Printer`. -/
def Printer.zero : Printer := ⟨"", "", ""⟩

/-- Zero value of `Filament`. -/
def Filament.zero : Filament := ⟨"", "", "", 0, 0⟩

/-- Zero value of `PrintJob`. -/
def PrintJob.zero : PrintJob := ⟨"", "", "", "", 0, ""⟩

/-- The FSM `main` builds: three allocated, empty maps. -/
def FSM.empty : FSM := ⟨∅, ∅, ∅⟩

/-- One object member stored into a `Printer` (JSON tags `id`, `company`, `model`). -/
def Printer.setField (p : Printer) (key : String) (v : Json) : Printer × Bool :=
  if keyMatches key "id" then
    let r := storeString p.ID v; ({ p with ID := r.1 }, r.2)
  else if keyMatches key "company" then
    let r := storeString p.Company v; ({ p with Company := r.1 }, r.2)
  else if keyMatches key "model" then
    let r := storeString p.Model v; ({ p with Model := r.1 }, r.2)
  else (p, true)

/-- One object member stored into a `Filament`. -/
def Filament.setField (fl : Filament) (key : String) (v : Json) : Filament × Bool :=
  if keyMatches key "id" then
    let r := storeString fl.ID v; ({ fl with ID := r.1 }, r.2)
  else if keyMatches key "type" then
    let r := storeString fl.Type_ v; ({ fl with Type_ := r.1 }, r.2)
  else if keyMatches key "color" then
    let r := storeString fl.Color v; ({ fl with Color := r.1 }, r.2)
  else if keyMatches key "total_weight_in_grams" then
    let r := storeInt fl.TotalWeightInGrams v; ({ fl with TotalWeightInGrams := r.1 }, r.2)
  else if keyMatches key "remaining_weight_in_grams" then
    let r := storeInt fl.RemainingWeightInGrams v
    ({ fl with RemainingWeightInGrams := r.1 }, r.2)
  else (fl, true)

/-- One object member stored into a `PrintJob`. -/
def PrintJob.setField (j : PrintJob) (key : String) (v : Json) : PrintJob × Bool :=
  if keyMatches key "id" then
    let r := storeString j.ID v; ({ j with ID := r.1 }, r.2)
  else if keyMatches key "printer_id" then
    let r := storeString j.PrinterID v; ({ j with PrinterID := r.1 }, r.2)
  else if keyMatches key "filament_id" then
    let r := storeString j.FilamentID v; ({ j with FilamentID := r.1 }, r.2)
  else if keyMatches key "filepath" then
    let r := storeString j.FilePath v; ({ j with FilePath := r.1 }, r.2)
  else if keyMatches key "print_weight_in_grams" then
    let r := storeInt j.PrintWeightInGrams v; ({ j with PrintWeightInGrams := r.1 }, r.2)
  else if keyMatches key "status" then
    let r := storeString j.Status v; ({ j with Status := r.1 }, r.2)
  else (j, true)

/-- The command envelope declared in `FSM.Apply`. `Payload` is a
`json.RawMessage`: `none` is the nil slice, `some v` the captured value. -/
structure Cmd where
  Op : String
  Payload : Option Json

/-- Zero value of the command envelope. -/
def Cmd.zero : Cmd := ⟨"", none⟩

/-- One object member stored into the envelope; a `json.RawMessage` captures
whatever value is written, `null` included. -/
def Cmd.setField (c : Cmd) (key : String) (v : Json) : Cmd × Bool :=
  if keyMatches key "op" then
    let r := storeString c.Op v; ({ c with Op := r.1 }, r.2)
  else if keyMatches key "payload" then ({ c with Payload := some v }, true)
  else (c, true)

/-- The bytes of a `json.RawMessage`: the nil slice is not a JSON value. -/
def rawBytes : Option Json → Bytes
  | none => .invalid
  | some v => .json v

/-- Payload struct of `UPDATE_JOB_STATUS`. -/
structure StatusUpdate where
  JobID : String
  Status : String
deriving DecidableEq, Repr

/-- One object member stored into the `UPDATE_JOB_STATUS` payload. -/
def StatusUpdate.setField (u : StatusUpdate) (key : String) (v : Json) : StatusUpdate × Bool :=
  if keyMatches key "job_id" then
    let r := storeString u.JobID v; ({ u with JobID := r.1 }, r.2)
  else if keyMatches key "status" then
    let r := storeString u.Status v; ({ u with Status := r.1 }, r.2)
  else (u, true)

/-- Payload struct of `REDUCE_FILAMENT`. -/
structure Reduction where
  FilamentID : String
  Weight : Int
deriving DecidableEq, Repr

/-- One object member stored into the `REDUCE_FILAMENT` payload. -/
def Reduction.setField (r : Reduction) (key : String) (v : Json) : Reduction × Bool :=
  if keyMatches key "filament_id" then
    let x := storeString r.FilamentID v; ({ r with FilamentID := x.1 }, x.2)
  else if keyMatches key "weight" then
    let x := storeInt r.Weight v; ({ r with Weight := x.1 }, x.2)
  else (r, true)

/-! ## The state machine (`raftstore/fsm.go`) -/

/-- What `FSM.Apply` returns as its `interface{}`: nil, or the decode error of
the payload. -/
inductive ApplyResult where
  | nil
  | err
deriving DecidableEq, Repr

/-- `func (f *FSM) Apply(logEntry *raft.Log) interface{}`: the state afterwards
and the returned value. -/
def FSM.Apply (f : FSM) (logEntry : Bytes) : FSM × ApplyResult :=
  let cmd := Unmarshal (storeStruct Cmd.setField) logEntry Cmd.zero
  if cmd.2 = false then (f, .nil)
  else if cmd.1.Op = "ADD_PRINTER" then
    let p := Unmarshal (storeStruct Printer.setField) (rawBytes cmd.1.Payload) Printer.zero
    if p.2 = false then (f, .err)
    else ({ f with Printers := f.Printers.insert p.1.ID p.1 }, .nil)
  else if cmd.1.Op = "DELETE_PRINTER" then
    let printerID := Unmarshal storeString (rawBytes cmd.1.Payload) ""
    if printerID.2 = false then (f, .err)
    else ({ f with Printers := f.Printers.erase printerID.1 }, .nil)
  else if cmd.1.Op = "ADD_FILAMENT" then
    let fl := Unmarshal (storeStruct Filament.setField) (rawBytes cmd.1.Payload) Filament.zero
    if fl.2 = false then (f, .err)
    else ({ f with Filaments := f.Filaments.insert fl.1.ID fl.1 }, .nil)
  else if cmd.1.Op = "ADD_JOB" then
    let job := Unmarshal (storeStruct PrintJob.setField) (rawBytes cmd.1.Payload) PrintJob.zero
    if job.2 = false then (f, .err)
    else ({ f with PrintJobs := f.PrintJobs.insert job.1.ID job.1 }, .nil)
  else if cmd.1.Op = "UPDATE_JOB_STATUS" then
    let update :=
      Unmarshal (storeStruct StatusUpdate.setField) (rawBytes cmd.1.Payload) ⟨"", ""⟩
    if update.2 = false then (f, .err)
    else
      match f.PrintJobs.lookup update.1.JobID with
      | some job =>
        let job := { job with Status := update.1.Status }
        ({ f with PrintJobs := f.PrintJobs.insert update.1.JobID job }, .nil)
      | none => (f, .nil)
  else if cmd.1.Op = "REDUCE_FILAMENT" then
    let payload :=
      Unmarshal (storeStruct Reduction.setField) (rawBytes cmd.1.Payload) ⟨"", 0⟩
    if payload.2 = false then (f, .err)
    else
      match f.Filaments.lookup payload.1.FilamentID with
      | some filament =>
        let remaining := intSub filament.RemainingWeightInGrams payload.1.Weight
        let filament :=
          { filament with RemainingWeightInGrams := if remaining < 0 then 0 else remaining }
        ({ f with Filaments := f.Filaments.insert payload.1.FilamentID filament }, .nil)
      | none => (f, .nil)
  else (f, .nil)

/-- States the FSM of `main` can be in: `FSM.empty` and whatever `FSM.Apply`
makes of it, entry after entry. -/
inductive Reachable : FSM → Prop where
  | init : Reachable FSM.empty
  | step (f : FSM) (logEntry : Bytes) : Reachable f → Reachable (f.Apply logEntry).1

/-! ### Snapshots -/

/-- Go's `json.Marshal` of a `Printer`. -/
def Printer.Marshal (p : Printer) : Json :=
  .obj [("id", .str p.ID), ("company", .str p.Company), ("model", .str p.Model)]

/-- Go's `json.Marshal` of a `Filament`. -/
def Filament.Marshal (fl : Filament) : Json :=
  .obj [("id", .str fl.ID), ("type", .str fl.Type_), ("color", .str fl.Color),
    ("total_weight_in_grams", .num fl.TotalWeightInGrams),
    ("remaining_weight_in_grams", .num fl.RemainingWeightInGrams)]

/-- Go's `json.Marshal` of a `PrintJob`. -/
def PrintJob.Marshal (j : PrintJob) : Json :=
  .obj [("id", .str j.ID), ("printer_id", .str j.PrinterID),
    ("filament_id", .str j.FilamentID), ("filepath", .str j.FilePath),
    ("print_weight_in_grams", .num j.PrintWeightInGrams), ("status", .str j.Status)]

/-- Go's `json.Marshal` of an allocated map: an object whose members are the
entries of the map, sorted by key. -/
def marshalMap {α : Type} (enc : α → Json) (m : GoMap α) : Json :=
  .obj ((m.keys.sort (· ≤ ·)).filterMap fun k => (m.lookup k).map fun v => (k, enc v))

/-- Go's `json.Marshal` of the FSM: its three exported fields, under their Go
names; the unexported mutex is skipped. -/
def FSM.Marshal (f : FSM) : Json :=
  .obj [("Printers", marshalMap Printer.Marshal f.Printers),
    ("Filaments", marshalMap Filament.Marshal f.Filaments),
    ("PrintJobs", marshalMap PrintJob.Marshal f.PrintJobs)]

/-- The `snapshot` struct: a reference to the FSM. -/
structure snapshot where
  store : FSM

/-- `func (f *FSM) Snapshot() (raft.FSMSnapshot, error)`; the error is always nil. -/
def FSM.Snapshot (f : FSM) : snapshot := ⟨f⟩

/-- `func (s *snapshot) Persist(sink raft.SnapshotSink) error`, for a sink that
accepts the write: the bytes written to the sink. -/
def snapshot.Persist (s : snapshot) : Bytes := .json s.store.Marshal

/-- One object member stored into the FSM by `Decode(f)`: the map fields are
decoded in place. -/
def FSM.setField (f : FSM) (key : String) (v : Json) : FSM × Bool :=
  if keyMatches key "Printers" then
    let r := storeMap (storeStruct Printer.setField Printer.zero) f.Printers v
    ({ f with Printers := r.1 }, r.2)
  else if keyMatches key "Filaments" then
    let r := storeMap (storeStruct Filament.setField Filament.zero) f.Filaments v
    ({ f with Filaments := r.1 }, r.2)
  else if keyMatches key "PrintJobs" then
    let r := storeMap (storeStruct PrintJob.setField PrintJob.zero) f.PrintJobs v
    ({ f with PrintJobs := r.1 }, r.2)
  else (f, true)

/-- `func (f *FSM) Restore(rc io.ReadCloser) error`, which is
`json.NewDecoder(rc).Decode(f)`: the state afterwards and whether the error is nil. -/
def FSM.Restore (f : FSM) (rc : Bytes) : FSM × Bool :=
  Unmarshal (storeStruct FSM.setField) rc f

/-! ## The store (`raftstore/store.go`) -/

/-- The part of the raft node the store uses, with the part its surroundings
play in it: the entries committed so far, oldest first, and, for each number
of committed entries, whether a `raft.Apply` called at that point succeeds (the
node leads and the entry is committed within the timeout). Leadership can be
lost between any two calls, those of a single request included. -/
structure Raft where
  commits : Nat → Bool
  log : List Bytes

/-- Whether a `raft.Apply` called now succeeds. -/
def Raft.leader (r : Raft) : Bool := r.commits r.log.length

structure RaftStore where
  raft : Raft
  fsm : FSM

/-- Go's `json.Marshal` of the map `{"op": op, "payload": payload}` built by
`applyCommand`. -/
def commandBytes (op : String) (payload : Json) : Bytes :=
  .json (.obj [("op", .str op), ("payload", payload)])

/-- `func (s *RaftStore) applyCommand(op string, payload interface{}) error`:
the store afterwards and whether the error is nil. Whether `raft.Apply`
succeeds is read off `Raft.leader` at the time of the call. -/
def RaftStore.applyCommand (s : RaftStore) (op : String) (payload : Json) : RaftStore × Bool :=
  let data := commandBytes op payload
  if s.raft.leader then
    ({ raft := { s.raft with log := s.raft.log ++ [data] }, fsm := (s.fsm.Apply data).1 }, true)
  else (s, false)

def RaftStore.CreatePrinter (s : RaftStore) (p : Printer) : RaftStore × Bool :=
  s.applyCommand "ADD_PRINTER" p.Marshal

def RaftStore.GetPrinter (s : RaftStore) (id : String) : Option Printer :=
  s.fsm.Printers.lookup id

def RaftStore.CreateFilament (s : RaftStore) (f : Filament) : RaftStore × Bool :=
  s.applyCommand "ADD_FILAMENT" f.Marshal

def RaftStore.GetFilament (s : RaftStore) (id : String) : Option Filament :=
  s.fsm.Filaments.lookup id

def RaftStore.ReduceFilamentWeight (s : RaftStore) (filamentID : String) (weight : Int) :
    RaftStore × Bool :=
  s.applyCommand "REDUCE_FILAMENT" (.obj [("filament_id", .str filamentID), ("weight", .num weight)])

/-- Body of the loop of `GetPendingFilamentUsage`: `total` after one more job. -/
def pendingStep (filamentID : String) (total : Int) (job : PrintJob) : Int :=
  if job.FilamentID = filamentID ∧ (job.Status = "Queued" ∨ job.Status = "Running") then
    intAdd total job.PrintWeightInGrams
  else total

/-- The loop of `GetPendingFilamentUsage` run over the jobs in one iteration
order of the map. -/
def pendingLoop (filamentID : String) (jobs : List (Sigma fun _ : String => PrintJob)) : Int :=
  jobs.foldl (fun total kv => pendingStep filamentID total kv.2) 0

/-- `func (s *RaftStore) GetPendingFilamentUsage(filamentID string) int`. The
order in which `range` visits the map is not defined; the loop body commutes
with itself, so every order gives this value. -/
def RaftStore.GetPendingFilamentUsage (s : RaftStore) (filamentID : String) : Int :=
  s.fsm.PrintJobs.foldl (fun total _ job => pendingStep filamentID total job)
    (fun d _ b₁ _ b₂ => by
      simp only [pendingStep, intAdd, wrapInt]
      split_ifs <;> omega)
    0

def RaftStore.CreatePrintJob (s : RaftStore) (j : PrintJob) : RaftStore × Bool :=
  s.applyCommand "ADD_JOB" j.Marshal

def RaftStore.GetPrintJob (s : RaftStore) (id : String) : Option PrintJob :=
  s.fsm.PrintJobs.lookup id

def RaftStore.UpdateJobStatus (s : RaftStore) (jobID status : String) : RaftStore × Bool :=
  s.applyCommand "UPDATE_JOB_STATUS" (.obj [("job_id", .str jobID), ("status", .str status)])

/-! ## The request handlers (`main.go`) -/

/-- Gin's `c.ShouldBindJSON(&v)`: the request body decoded into `v`; none of
the bound structs carries a validation tag. -/
def ShouldBindJSON {α : Type} (store : α → Json → α × Bool) (body : Bytes) (v : α) : α × Bool :=
  Unmarshal store body v

/-- The table of `isValidStatusTransition`. -/
def validTransitions : List (String × List String) :=
  [("Queued", ["Running", "Cancelled"]), ("Running", ["Done", "Cancelled"]),
    ("Done", []), ("Cancelled", [])]

/-- `func isValidStatusTransition(oldStatus, newStatus string) bool`. -/
def isValidStatusTransition (oldStatus newStatus : String) : Bool :=
  match validTransitions.lookup oldStatus with
  | none => false
  | some allowed => allowed.any fun s => s == newStatus

/-- `func handleCreatePrinter(c *gin.Context)`: the store afterwards and the
HTTP status of the response. -/
def handleCreatePrinter (store : RaftStore) (body : Bytes) : RaftStore × Nat :=
  let printer := ShouldBindJSON (storeStruct Printer.setField) body Printer.zero
  if printer.2 = false then (store, 400)
  else
    let r := store.CreatePrinter printer.1
    if r.2 = false then (r.1, 500) else (r.1, 201)

/-- `func handleCreateFilament(c *gin.Context)`. -/
def handleCreateFilament (store : RaftStore) (body : Bytes) : RaftStore × Nat :=
  let filament := ShouldBindJSON (storeStruct Filament.setField) body Filament.zero
  if filament.2 = false then (store, 400)
  else if filament.1.TotalWeightInGrams ≤ 0 then (store, 400)
  else
    let filament := { filament.1 with RemainingWeightInGrams := filament.1.TotalWeightInGrams }
    let r := store.CreateFilament filament
    if r.2 = false then (r.1, 500) else (r.1, 201)

/-- `func handleCreatePrintJob(c *gin.Context)`. -/
def handleCreatePrintJob (store : RaftStore) (body : Bytes) : RaftStore × Nat :=
  let job := ShouldBindJSON (storeStruct PrintJob.setField) body PrintJob.zero
  if job.2 = false then (store, 400)
  else
    match store.GetPrinter job.1.PrinterID with
    | none => (store, 400)
    | some _ =>
      match store.GetFilament job.1.FilamentID with
      | none => (store, 400)
      | some filament =>
        let availableWeight :=
          intSub filament.RemainingWeightInGrams (store.GetPendingFilamentUsage job.1.FilamentID)
        if job.1.PrintWeightInGrams > availableWeight then (store, 400)
        else
          let job := { job.1 with Status := "Queued" }
          let r := store.CreatePrintJob job
          if r.2 = false then (r.1, 500) else (r.1, 201)

/-- Body of the status request: `struct { Status string }` with tag `status`. -/
structure StatusRequest where
  Status : String
deriving DecidableEq, Repr

/-- One object member stored into the status request. -/
def StatusRequest.setField (q : StatusRequest) (key : String) (v : Json) : StatusRequest × Bool :=
  if keyMatches key "status" then
    let r := storeString q.Status v; ({ q with Status := r.1 }, r.2)
  else (q, true)

/-- `func handleUpdateJobStatus(c *gin.Context)`; `jobID` is `c.Param("id")`. -/
def handleUpdateJobStatus (store : RaftStore) (jobID : String) (body : Bytes) : RaftStore × Nat :=
  let req := ShouldBindJSON (storeStruct StatusRequest.setField) body ⟨""⟩
  if req.2 = false then (store, 400)
  else
    match store.GetPrintJob jobID with
    | none => (store, 404)
    | some job =>
      if isValidStatusTransition job.Status req.1.Status = false then (store, 400)
      else
        let reduced :=
          if req.1.Status = "Done" then
            store.ReduceFilamentWeight job.FilamentID job.PrintWeightInGrams
          else (store, true)
        if reduced.2 = false then (reduced.1, 500)
        else
          let r := reduced.1.UpdateJobStatus jobID req.1.Status
          if r.2 = false then (r.1, 500) else (r.1, 200)

/-! ## Vocabulary of the statements -/

/-- The entry decodes without error to an envelope whose operation is `op` and
whose raw payload is `payload`. -/
def Bytes.IsCommand (logEntry : Bytes) (op : String) (payload : Bytes) : Prop :=
  ∃ cmd, Unmarshal (storeStruct Cmd.setField) logEntry Cmd.zero = (cmd, true) ∧
    cmd.Op = op ∧ rawBytes cmd.Payload = payload

/-! ## Concrete data used by the examples -/

/-- A spool `f1` of 1000 g with `remaining` grams left. -/
def spool (remaining : Int) : Filament := ⟨"f1", "PLA", "red", 1000, remaining⟩

/-- The state after the single entry `ADD_FILAMENT` carrying `spool remaining`:
it holds that spool and nothing else. -/
def spoolState (remaining : Int) : FSM :=
  (FSM.empty.Apply (commandBytes "ADD_FILAMENT" (spool remaining).Marshal)).1

/-- The entry `ReduceFilamentWeight(id, w)` submits. -/
def reduceEntry (id : String) (w : Int) : Bytes :=
  commandBytes "REDUCE_FILAMENT" (.obj [("filament_id", .str id), ("weight", .num w)])

/-- The job `j1` of 400 g on printer `p1` and spool `f1`, with the given status. -/
def job1 (status : String) : PrintJob := ⟨"j1", "p1", "f1", "a.gcode", 400, status⟩

/-- A node that keeps leading, whose state holds the job `j1` with the given
status and nothing else. -/
def jobStore (status : String) : RaftStore :=
  ⟨⟨fun _ => true, []⟩, ⟨∅, ∅, (∅ : GoMap PrintJob).insert "j1" (job1 status)⟩⟩

/-- The request body `{"status": s}`. -/
def statusBody (s : String) : Bytes := .json (.obj [("status", .str s)])

/-- The jobs whose weight the loop of `GetPendingFilamentUsage` adds to the
total for `filamentID`: those on that filament that are `Queued` or `Running`. -/
def pendingJobs (s : RaftStore) (filamentID : String) : Multiset PrintJob :=
  (s.fsm.PrintJobs.entries.map fun kv => kv.2).filter fun job =>
    job.FilamentID = filamentID ∧ (job.Status = "Queued" ∨ job.Status = "Running")

/-- A running job of 9223372036854775807 g on spool `f1`. -/
def heavyJob (id : String) : PrintJob :=
  ⟨id, "p1", "f1", "a.gcode", 9223372036854775807, "Running"⟩

/-- A node that keeps leading, whose state is reached by two `ADD_JOB` entries
carrying the heavy jobs `j1` and `j2`. -/
def heavyStore : RaftStore :=
  ⟨⟨fun _ => true, []⟩,
    ((FSM.empty.Apply (commandBytes "ADD_JOB" (heavyJob "j1").Marshal)).1.Apply
      (commandBytes "ADD_JOB" (heavyJob "j2").Marshal)).1⟩

/-- Every `int` held by the state is in the range of `int`. -/
def WellFormed (f : FSM) : Prop :=
  (∀ k fl, f.Filaments.lookup k = some fl →
    InRange fl.TotalWeightInGrams ∧ InRange fl.RemainingWeightInGrams) ∧
  (∀ k j, f.PrintJobs.lookup k = some j → InRange j.PrintWeightInGrams)

/-- The six operation kinds `FSM.Apply` dispatches on. -/
def opKinds : List String :=
  ["ADD_PRINTER", "DELETE_PRINTER", "ADD_FILAMENT", "ADD_JOB", "UPDATE_JOB_STATUS",
    "REDUCE_FILAMENT"]

/-- Whether `payload` decodes without error into the payload type of the
operation kind `op`. -/
def payloadDecodes (op : String) (payload : Bytes) : Bool :=
  if op = "ADD_PRINTER" then (Unmarshal (storeStruct Printer.setField) payload Printer.zero).2
  else if op = "DELETE_PRINTER" then (Unmarshal storeString payload "").2
  else if op = "ADD_FILAMENT" then
    (Unmarshal (storeStruct Filament.setField) payload Filament.zero).2
  else if op = "ADD_JOB" then (Unmarshal (storeStruct PrintJob.setField) payload PrintJob.zero).2
  else if op = "UPDATE_JOB_STATUS" then
    (Unmarshal (storeStruct StatusUpdate.setField) payload ⟨"", ""⟩).2
  else if op = "REDUCE_FILAMENT" then
    (Unmarshal (storeStruct Reduction.setField) payload ⟨"", 0⟩).2
  else true

/-- The printer with the given id. -/
def printer (id : String) : Printer := ⟨id, "Prusa", "MK4"⟩

/-- A replica that has applied the creation of printers `p1` and `p2`. -/
def staleReplica : FSM :=
  ((FSM.empty.Apply (commandBytes "ADD_PRINTER" (printer "p1").Marshal)).1.Apply
    (commandBytes "ADD_PRINTER" (printer "p2").Marshal)).1

/-- The state of a replica that has also applied the deletion of `p1`. -/
def leaderState : FSM := (staleReplica.Apply (commandBytes "DELETE_PRINTER" (.str "p1"))).1

/-- A state reached from the empty one by four entries: a printer, a spool of
1000 g, a queued job of 400 g, and a reduction of the spool by 400 g. -/
def sampleState : FSM :=
  ((((FSM.empty.Apply (commandBytes "ADD_PRINTER" (printer "p1").Marshal)).1.Apply
    (commandBytes "ADD_FILAMENT" (spool 1000).Marshal)).1.Apply
    (commandBytes "ADD_JOB" (job1 "Queued").Marshal)).1.Apply (reduceEntry "f1" 400)).1

/-- A node that keeps leading, on the FSM `main` builds, with an empty log. -/
def freshLeader : RaftStore := ⟨⟨fun _ => true, []⟩, FSM.empty⟩

/-- Request body creating the printer `p1`. -/
def printerBody : Bytes := .json (printer "p1").Marshal

/-- Request body creating the spool `f1` with the given total weight. -/
def filamentBody (total : Int) : Bytes :=
  .json (.obj [("id", .str "f1"), ("type", .str "PLA"), ("color", .str "red"),
    ("total_weight_in_grams", .num total)])

/-- Request body creating a job of `w` grams on printer `p1` and spool `f1`;
the request asks for status `Done`. -/
def jobBody (id : String) (w : Int) : Bytes :=
  .json (PrintJob.Marshal ⟨id, "p1", "f1", "a.gcode", w, "Done"⟩)

/-- The leader after the requests creating printer `p1` and a 1000 g spool `f1`. -/
def shop : RaftStore :=
  (handleCreateFilament (handleCreatePrinter freshLeader printerBody).1 (filamentBody 1000)).1

/-- `shop` after the request creating job `j1` of `w` grams. -/
def shopWithJob (w : Int) : RaftStore := (handleCreatePrintJob shop (jobBody "j1" w)).1

/-- `shopWithJob w` after the request moving `j1` to `Running`. -/
def shopRunning (w : Int) : RaftStore :=
  (handleUpdateJobStatus (shopWithJob w) "j1" (statusBody "Running")).1

/-- `shopRunning w` after the request moving `j1` to `Done`. -/
def shopDone (w : Int) : RaftStore :=
  (handleUpdateJobStatus (shopRunning w) "j1" (statusBody "Done")).1

/-- `shop` after the request creating job `j0` with a print weight of
-9223372036854775808 g, which the handler admits. -/
def negativeStore : RaftStore :=
  (handleCreatePrintJob shop (jobBody "j0" (-9223372036854775808))).1

/-- The state after the entries of a log have been applied in order. -/
def FSM.applyAll (f : FSM) (entries : List Bytes) : FSM :=
  entries.foldl (fun s e => (s.Apply e).1) f

/-- The entry `DeletePrinter(id)` submits. -/
def deleteEntry (id : String) : Bytes := commandBytes "DELETE_PRINTER" (.str id)

/-- The entry `UpdateJobStatus(id, status)` submits. -/
def statusEntry (id status : String) : Bytes :=
  commandBytes "UPDATE_JOB_STATUS" (.obj [("job_id", .str id), ("status", .str status)])

/-! ## The request layer as a whole -/

/-- What a job adds to the pending usage of filament `filamentID`. -/
def weightOn (filamentID : String) (job : PrintJob) : Int :=
  if job.FilamentID = filamentID ∧ (job.Status = "Queued" ∨ job.Status = "Running") then
    job.PrintWeightInGrams
  else 0

/-- The exact sum, in the integers, of the print weights of the jobs on
filament `filamentID` that are `Queued` or `Running`. -/
def usage (jobs : GoMap PrintJob) (filamentID : String) : Int :=
  (jobs.entries.map fun kv => weightOn filamentID kv.2).sum

theorem wrapInt_of_inRange (x : Int) (h : InRange x) : wrapInt x = x := by
  unfold InRange minInt maxInt at h
  unfold wrapInt
  omega

theorem inRange_wrapInt (x : Int) : InRange (wrapInt x) := by
  unfold InRange minInt maxInt wrapInt
  omega

theorem apply_reduce_filament_eq (f : FSM) (logEntry payload : Bytes) (id : String) (w : Int)
    (hop : logEntry.IsCommand "REDUCE_FILAMENT" payload)
    (hp : Unmarshal (storeStruct Reduction.setField) payload ⟨"", 0⟩ = (⟨id, w⟩, true)) :
    f.Apply logEntry =
      match f.Filaments.lookup id with
      | some fl =>
        ({ f with
            Filaments := f.Filaments.insert id
              { fl with RemainingWeightInGrams := max 0 (intSub fl.RemainingWeightInGrams w) } },
          .nil)
      | none => (f, .nil) := by
  obtain ⟨cmd, hc, ho, hr⟩ := hop
  subst hr
  unfold FSM.Apply
  rw [hc]
  dsimp only
  rw [ho, hp]
  simp only [max_def]
  cases h : f.Filaments.lookup id with
  | none => simp
  | some fl =>
    simp
    congr 2
    split_ifs <;> first | rfl | omega

theorem apply_invalid_envelope (f : FSM) (logEntry : Bytes)
    (h : (Unmarshal (storeStruct Cmd.setField) logEntry Cmd.zero).2 = false) :
    f.Apply logEntry = (f, .nil) := by
  unfold FSM.Apply
  simp [h]

theorem apply_unknown_op (f : FSM) (logEntry payload : Bytes) (op : String)
    (hop : logEntry.IsCommand op payload)
    (h : op ∉ ["ADD_PRINTER", "DELETE_PRINTER", "ADD_FILAMENT", "ADD_JOB",
      "UPDATE_JOB_STATUS", "REDUCE_FILAMENT"]) :
    f.Apply logEntry = (f, .nil) := by
  obtain ⟨cmd, hc, ho, hr⟩ := hop
  subst hr
  simp only [List.mem_cons, List.mem_singleton, List.not_mem_nil, or_false, not_or] at h
  unfold FSM.Apply
  rw [hc]
  dsimp only
  rw [ho]
  simp [h]

theorem apply_add_printer_eq (f : FSM) (logEntry payload : Bytes) (p : Printer) (ok : Bool)
    (hop : logEntry.IsCommand "ADD_PRINTER" payload)
    (hp : Unmarshal (storeStruct Printer.setField) payload Printer.zero = (p, ok)) :
    f.Apply logEntry =
      if ok = false then (f, .err)
      else ({ f with Printers := f.Printers.insert p.ID p }, .nil) := by
  obtain ⟨cmd, hc, ho, hr⟩ := hop
  subst hr
  unfold FSM.Apply
  rw [hc]
  dsimp only
  rw [ho, hp]
  simp

theorem apply_delete_printer_eq (f : FSM) (logEntry payload : Bytes) (id : String) (ok : Bool)
    (hop : logEntry.IsCommand "DELETE_PRINTER" payload)
    (hp : Unmarshal storeString payload "" = (id, ok)) :
    f.Apply logEntry =
      if ok = false then (f, .err)
      else ({ f with Printers := f.Printers.erase id }, .nil) := by
  obtain ⟨cmd, hc, ho, hr⟩ := hop
  subst hr
  unfold FSM.Apply
  rw [hc]
  dsimp only
  rw [ho, hp]
  simp

theorem apply_add_filament_eq (f : FSM) (logEntry payload : Bytes) (fl : Filament) (ok : Bool)
    (hop : logEntry.IsCommand "ADD_FILAMENT" payload)
    (hp : Unmarshal (storeStruct Filament.setField) payload Filament.zero = (fl, ok)) :
    f.Apply logEntry =
      if ok = false then (f, .err)
      else ({ f with Filaments := f.Filaments.insert fl.ID fl }, .nil) := by
  obtain ⟨cmd, hc, ho, hr⟩ := hop
  subst hr
  unfold FSM.Apply
  rw [hc]
  dsimp only
  rw [ho, hp]
  simp

theorem apply_add_job_eq (f : FSM) (logEntry payload : Bytes) (j : PrintJob) (ok : Bool)
    (hop : logEntry.IsCommand "ADD_JOB" payload)
    (hp : Unmarshal (storeStruct PrintJob.setField) payload PrintJob.zero = (j, ok)) :
    f.Apply logEntry =
      if ok = false then (f, .err)
      else ({ f with PrintJobs := f.PrintJobs.insert j.ID j }, .nil) := by
  obtain ⟨cmd, hc, ho, hr⟩ := hop
  subst hr
  unfold FSM.Apply
  rw [hc]
  dsimp only
  rw [ho, hp]
  simp

theorem apply_update_job_status_eq (f : FSM) (logEntry payload : Bytes) (u : StatusUpdate)
    (ok : Bool) (hop : logEntry.IsCommand "UPDATE_JOB_STATUS" payload)
    (hp : Unmarshal (storeStruct StatusUpdate.setField) payload ⟨"", ""⟩ = (u, ok)) :
    f.Apply logEntry =
      if ok = false then (f, .err)
      else
        match f.PrintJobs.lookup u.JobID with
        | some job =>
          ({ f with PrintJobs := f.PrintJobs.insert u.JobID { job with Status := u.Status } },
            .nil)
        | none => (f, .nil) := by
  obtain ⟨cmd, hc, ho, hr⟩ := hop
  subst hr
  unfold FSM.Apply
  rw [hc]
  dsimp only
  rw [ho, hp]
  simp

theorem apply_reduce_filament_failed (f : FSM) (logEntry payload : Bytes)
    (hop : logEntry.IsCommand "REDUCE_FILAMENT" payload)
    (hp : (Unmarshal (storeStruct Reduction.setField) payload ⟨"", 0⟩).2 = false) :
    f.Apply logEntry = (f, .err) := by
  obtain ⟨cmd, hc, ho, hr⟩ := hop
  subst hr
  unfold FSM.Apply
  rw [hc]
  dsimp only
  rw [ho]
  simp [hp]

theorem commandBytes_isCommand (op : String) (payload : Json) :
    (commandBytes op payload).IsCommand op (.json payload) :=
  ⟨⟨op, some payload⟩, rfl, rfl, rfl⟩

/-! ## C1: `REDUCE_FILAMENT` -/

/-- C1, as stated, fails on 64-bit overflow. With 0 g remaining and weight
`-9223372036854775808` the subtraction wraps to a negative number and the
spool stays at 0, where `max(0, remaining - weight)` is 9223372036854775808;
with -2 g remaining and weight 9223372036854775807, a weight greater than
remaining, the subtraction wraps to 9223372036854775807, which is stored. -/
theorem reduce_filament_overflow_counterexample :
    (InRange (-9223372036854775808) ∧
      (((spoolState 0).Apply (reduceEntry "f1" (-9223372036854775808))).1.Filaments.lookup
          "f1").map (fun fl => fl.RemainingWeightInGrams) = some 0 ∧
      max (0 : Int) (0 - -9223372036854775808) = 9223372036854775808) ∧
    (InRange 9223372036854775807 ∧ (-2 : Int) < 9223372036854775807 ∧
      (((spoolState (-2)).Apply (reduceEntry "f1" 9223372036854775807)).1.Filaments.lookup
          "f1").map (fun fl => fl.RemainingWeightInGrams) = some 9223372036854775807) := by
  decide

/-- C1, amended. `FSM.Apply` of a `REDUCE_FILAMENT` entry sets the remaining
weight of an existing filament to `max(0, remaining - weight)` with the
subtraction taken in 64-bit `int` arithmetic: the result is never negative,
it is `max(0, remaining - weight)` whenever `remaining - weight` is in the
range of `int`, and then a weight greater than remaining yields exactly 0.
The other fields of the filament, every other filament, the printers and the
jobs are unchanged, and an absent filament id leaves the whole state unchanged. -/
theorem apply_reduce_filament_clamp (f : FSM) (logEntry payload : Bytes) (id : String) (w : Int)
    (hop : logEntry.IsCommand "REDUCE_FILAMENT" payload)
    (hp : Unmarshal (storeStruct Reduction.setField) payload ⟨"", 0⟩ = (⟨id, w⟩, true)) :
    (∀ fl, f.Filaments.lookup id = some fl →
      (f.Apply logEntry).1.Filaments.lookup id =
          some { fl with
            RemainingWeightInGrams := max 0 (wrapInt (fl.RemainingWeightInGrams - w)) } ∧
        0 ≤ max 0 (wrapInt (fl.RemainingWeightInGrams - w)) ∧
        (InRange (fl.RemainingWeightInGrams - w) →
          (f.Apply logEntry).1.Filaments.lookup id =
              some { fl with RemainingWeightInGrams := max 0 (fl.RemainingWeightInGrams - w) } ∧
            (fl.RemainingWeightInGrams < w →
              (f.Apply logEntry).1.Filaments.lookup id =
                some { fl with RemainingWeightInGrams := 0 })) ∧
        (∀ k, k ≠ id → (f.Apply logEntry).1.Filaments.lookup k = f.Filaments.lookup k) ∧
        (f.Apply logEntry).1.Printers = f.Printers ∧
        (f.Apply logEntry).1.PrintJobs = f.PrintJobs) ∧
    (f.Filaments.lookup id = none → (f.Apply logEntry).1 = f) := by
  rw [apply_reduce_filament_eq f logEntry payload id w hop hp]
  constructor
  · intro fl hfl
    rw [hfl]
    have key : (Finmap.insert id
        ({ fl with RemainingWeightInGrams := max 0 (intSub fl.RemainingWeightInGrams w) } :
          Filament) f.Filaments).lookup id =
        some { fl with
          RemainingWeightInGrams := max 0 (wrapInt (fl.RemainingWeightInGrams - w)) } := by
      rw [Finmap.lookup_insert]; rfl
    refine ⟨key, le_max_left _ _, ?_, ?_, rfl, rfl⟩
    · intro hr
      have hw := wrapInt_of_inRange _ hr
      have key2 := key
      rw [hw] at key2
      refine ⟨key2, fun hlt => ?_⟩
      have h0 : max 0 (fl.RemainingWeightInGrams - w) = 0 := max_eq_left (by omega)
      rw [h0] at key2
      exact key2
    · intro k hk
      exact Finmap.lookup_insert_of_ne _ hk
  · intro hnone
    rw [hnone]

/-- The amended C1 at a concrete input: reducing the 1000 g spool by 1400 g. -/
theorem apply_reduce_filament_clamp_witness :
    (reduceEntry "f1" 1400).IsCommand "REDUCE_FILAMENT"
        (.json (.obj [("filament_id", .str "f1"), ("weight", .num 1400)])) ∧
      InRange (1000 - 1400) ∧
      ((spoolState 1000).Apply (reduceEntry "f1" 1400)).1.Filaments.lookup "f1" =
        some (spool 0) :=
  ⟨⟨_, rfl, rfl, rfl⟩, by decide,
    ((((apply_reduce_filament_clamp (spoolState 1000) (reduceEntry "f1" 1400) _ "f1" 1400
      ⟨_, rfl, rfl, rfl⟩ rfl).1 (spool 1000) (by decide)).2.2.1 (by decide)).2 (by decide))⟩

/-! ## C2: `ADD_JOB` -/

/-- C2, as stated, fails: an `ADD_JOB` entry whose payload says `Done` is
stored with status `Done`, not `Queued`. -/
theorem add_job_status_counterexample :
    ((FSM.empty.Apply (commandBytes "ADD_JOB" (job1 "Done").Marshal)).1.PrintJobs.lookup
        "j1").map (fun j => j.Status) = some "Done" := by
  decide

/-- C2, amended. After `FSM.Apply` of an `ADD_JOB` entry carrying a job `j`,
the stored `PrintJobs[j.ID]` is `j` itself, the status of the payload
included: the state machine does not replace it by `Queued`. -/
theorem apply_add_job_verbatim (f : FSM) (logEntry payload : Bytes) (j : PrintJob)
    (hop : logEntry.IsCommand "ADD_JOB" payload)
    (hp : Unmarshal (storeStruct PrintJob.setField) payload PrintJob.zero = (j, true)) :
    (f.Apply logEntry).1.PrintJobs.lookup j.ID = some j := by
  rw [apply_add_job_eq f logEntry payload j true hop hp]
  simp

/-- The amended C2 at a concrete input: a payload whose status is `Cancelled`. -/
theorem apply_add_job_verbatim_witness :
    (commandBytes "ADD_JOB" (job1 "Cancelled").Marshal).IsCommand "ADD_JOB"
        (.json (job1 "Cancelled").Marshal) ∧
      Unmarshal (storeStruct PrintJob.setField) (.json (job1 "Cancelled").Marshal)
          PrintJob.zero = (job1 "Cancelled", true) ∧
      ((spoolState 1000).Apply
          (commandBytes "ADD_JOB" (job1 "Cancelled").Marshal)).1.PrintJobs.lookup "j1" =
        some (job1 "Cancelled") :=
  ⟨⟨_, rfl, rfl, rfl⟩, by decide,
    apply_add_job_verbatim (spoolState 1000) _ _ (job1 "Cancelled") ⟨_, rfl, rfl, rfl⟩
      (by decide)⟩

/-! ## C3: the status transition table -/

/-- C3. `isValidStatusTransition` holds exactly of the four pairs of the
table, and on every other pair `handleUpdateJobStatus`, asked to move an
existing job from the old to the new status, answers 400 and leaves the store,
its log included, as it was. -/
theorem status_transition_table (oldStatus newStatus : String) :
    (isValidStatusTransition oldStatus newStatus = true ↔
      (oldStatus, newStatus) ∈ [("Queued", "Running"), ("Queued", "Cancelled"),
        ("Running", "Done"), ("Running", "Cancelled")]) ∧
    (isValidStatusTransition oldStatus newStatus = false →
      ∀ (store : RaftStore) (jobID : String) (body : Bytes) (job : PrintJob),
        ShouldBindJSON (storeStruct StatusRequest.setField) body ⟨""⟩ = (⟨newStatus⟩, true) →
        store.GetPrintJob jobID = some job → job.Status = oldStatus →
        handleUpdateJobStatus store jobID body = (store, 400)) := by
  constructor
  · unfold isValidStatusTransition validTransitions
    simp only [List.lookup]
    by_cases h1 : oldStatus = "Queued"
    · subst h1
      simp +decide
      constructor
      · rintro (h | h) <;> simp [← h]
      · rintro (h | h) <;> simp [h]
    · by_cases h2 : oldStatus = "Running"
      · subst h2
        simp +decide
        constructor
        · rintro (h | h) <;> simp [← h]
        · rintro (h | h) <;> simp [h]
      · by_cases h3 : oldStatus = "Done"
        · subst h3; simp +decide
        · by_cases h4 : oldStatus = "Cancelled"
          · subst h4; simp +decide
          · have e1 : (oldStatus == "Queued") = false := by simpa using h1
            have e2 : (oldStatus == "Running") = false := by simpa using h2
            have e3 : (oldStatus == "Done") = false := by simpa using h3
            have e4 : (oldStatus == "Cancelled") = false := by simpa using h4
            simp [e1, e2, e3, e4, h1, h2]
  · intro hv store jobID body job hb hj hs
    subst hs
    unfold handleUpdateJobStatus
    rw [hb]
    dsimp only
    rw [hj]
    simp [hv]

/-- C3 at concrete inputs: `Queued -> Cancelled` is served with 200 and
stored; after it `Cancelled -> Running` is rejected, and so is `Done -> Running`. -/
theorem status_transition_table_witness :
    (handleUpdateJobStatus (jobStore "Queued") "j1" (statusBody "Cancelled")).2 = 200 ∧
      (handleUpdateJobStatus (jobStore "Queued") "j1" (statusBody "Cancelled")).1.fsm =
        (jobStore "Cancelled").fsm ∧
      isValidStatusTransition "Cancelled" "Running" = false ∧
      handleUpdateJobStatus
          (handleUpdateJobStatus (jobStore "Queued") "j1" (statusBody "Cancelled")).1 "j1"
          (statusBody "Running") =
        ((handleUpdateJobStatus (jobStore "Queued") "j1" (statusBody "Cancelled")).1, 400) ∧
      handleUpdateJobStatus (jobStore "Done") "j1" (statusBody "Running") =
        (jobStore "Done", 400) :=
  ⟨by decide, by decide, by decide,
    (status_transition_table "Cancelled" "Running").2 (by decide) _ "j1" _
      (job1 "Cancelled") rfl (by decide) rfl,
    (status_transition_table "Done" "Running").2 (by decide) _ "j1" _ (job1 "Done") rfl
      (by decide) rfl⟩

/-! ## C4: pending filament usage -/

theorem pendingLoop_fold (filamentID : String)
    (jobs : List (Sigma fun _ : String => PrintJob)) (t : Int) (ht : InRange t) :
    jobs.foldl (fun total kv => pendingStep filamentID total kv.2) t =
      wrapInt (t + (((jobs.map fun kv => kv.2).filter fun job =>
        job.FilamentID = filamentID ∧ (job.Status = "Queued" ∨ job.Status = "Running")).map
          fun j => j.PrintWeightInGrams).sum) := by
  induction jobs generalizing t with
  | nil => simp [wrapInt_of_inRange t ht]
  | cons kv rest ih =>
    simp only [List.foldl_cons, List.map_cons]
    by_cases hc :
        kv.2.FilamentID = filamentID ∧ (kv.2.Status = "Queued" ∨ kv.2.Status = "Running")
    · rw [ih _ (by unfold pendingStep; rw [if_pos hc]; exact inRange_wrapInt _)]
      rw [List.filter_cons_of_pos (by simpa using hc)]
      simp only [List.map_cons, List.sum_cons, pendingStep, if_pos hc, intAdd, wrapInt]
      omega
    · rw [ih _ (by unfold pendingStep; rw [if_neg hc]; exact ht)]
      rw [List.filter_cons_of_neg (by simpa using hc)]
      simp only [pendingStep, if_neg hc]

/-- C4, as stated, fails on 64-bit overflow: with two running jobs of
9223372036854775807 g each on spool `f1` the loop returns -2, where the sum of
the two weights is 18446744073709551614. -/
theorem pending_usage_overflow_counterexample :
    InRange (heavyJob "j1").PrintWeightInGrams ∧
      heavyStore.GetPendingFilamentUsage "f1" = -2 ∧
      ((pendingJobs heavyStore "f1").map fun j => j.PrintWeightInGrams).sum =
        18446744073709551614 := by
  decide

/-- C4, amended. `GetPendingFilamentUsage(f)` is the sum of
`PrintWeightInGrams` over exactly the jobs on filament `f` that are `Queued`
or `Running`, reduced to a 64-bit `int`: it is that sum whenever the sum is in
the range of `int`, and 0 when there is no such job. Whatever the order in
which the map is visited, the loop returns this value. -/
theorem pending_usage_sum (s : RaftStore) (filamentID : String) :
    s.GetPendingFilamentUsage filamentID =
        wrapInt ((pendingJobs s filamentID).map fun j => j.PrintWeightInGrams).sum ∧
      (InRange ((pendingJobs s filamentID).map fun j => j.PrintWeightInGrams).sum →
        s.GetPendingFilamentUsage filamentID =
          ((pendingJobs s filamentID).map fun j => j.PrintWeightInGrams).sum) ∧
      (pendingJobs s filamentID = 0 → s.GetPendingFilamentUsage filamentID = 0) ∧
      (∀ jobs : List (Sigma fun _ : String => PrintJob),
        (jobs : Multiset (Sigma fun _ : String => PrintJob)) = s.fsm.PrintJobs.entries →
        pendingLoop filamentID jobs = s.GetPendingFilamentUsage filamentID) := by
  have hloop : ∀ jobs : List (Sigma fun _ : String => PrintJob),
      (jobs : Multiset (Sigma fun _ : String => PrintJob)) = s.fsm.PrintJobs.entries →
      pendingLoop filamentID jobs =
        wrapInt ((pendingJobs s filamentID).map fun j => j.PrintWeightInGrams).sum := by
    intro jobs hj
    unfold pendingLoop pendingJobs
    rw [pendingLoop_fold filamentID jobs 0 (by decide), ← hj]
    simp
  have hget : ∀ jobs : List (Sigma fun _ : String => PrintJob),
      (jobs : Multiset (Sigma fun _ : String => PrintJob)) = s.fsm.PrintJobs.entries →
      s.GetPendingFilamentUsage filamentID = pendingLoop filamentID jobs := by
    intro jobs hj
    unfold RaftStore.GetPendingFilamentUsage Finmap.foldl pendingLoop
    rw [← hj]
    rfl
  obtain ⟨jobs, hj⟩ : ∃ jobs : List (Sigma fun _ : String => PrintJob),
      (jobs : Multiset (Sigma fun _ : String => PrintJob)) = s.fsm.PrintJobs.entries :=
    ⟨s.fsm.PrintJobs.entries.toList, by simp⟩
  have hmain := (hget jobs hj).trans (hloop jobs hj)
  refine ⟨hmain, fun hr => by rw [hmain, wrapInt_of_inRange _ hr], fun h0 => ?_, fun l hl => ?_⟩
  · rw [hmain, h0]; rfl
  · rw [hloop l hl, hmain]

/-- The amended C4 at a concrete input: one queued job of 400 g on spool `f1`
gives a pending usage of 400 g, and none on spool `f2`. -/
theorem pending_usage_sum_witness :
    InRange ((pendingJobs (jobStore "Queued") "f1").map fun j => j.PrintWeightInGrams).sum ∧
      (jobStore "Queued").GetPendingFilamentUsage "f1" =
        ((pendingJobs (jobStore "Queued") "f1").map fun j => j.PrintWeightInGrams).sum ∧
      ((pendingJobs (jobStore "Queued") "f1").map fun j => j.PrintWeightInGrams).sum = 400 ∧
      (jobStore "Queued").GetPendingFilamentUsage "f2" = 0 :=
  ⟨by decide, (pending_usage_sum (jobStore "Queued") "f1").2.1 (by decide), by decide,
    (pending_usage_sum (jobStore "Queued") "f2").2.2.1 (by decide)⟩

/-! ## Invariant of the reachable states -/

theorem storeInt_inRange (cur : Int) (v : Json) (h : InRange cur) :
    InRange (storeInt cur v).1 := by
  cases v <;> simp only [storeInt] <;> try exact h
  split_ifs with hc
  · exact hc
  · exact h

theorem storeStruct_invariant {α : Type} (P : α → Prop)
    (setField : α → String → Json → α × Bool)
    (hstep : ∀ a k v, P a → P (setField a k v).1) (cur : α) (hcur : P cur) (v : Json) :
    P (storeStruct setField cur v).1 := by
  cases v <;> simp only [storeStruct] <;> try exact hcur
  rename_i members
  have : ∀ (l : List (String × Json)) (acc : α × Bool), P acc.1 →
      P (l.foldl (fun acc kv => let r := setField acc.1 kv.1 kv.2; (r.1, acc.2 && r.2))
        acc).1 := by
    intro l
    induction l with
    | nil => intro acc h; exact h
    | cons kv rest ih => intro acc h; exact ih _ (hstep _ _ _ h)
  exact this members _ hcur

theorem unmarshal_invariant {α : Type} (P : α → Prop)
    (setField : α → String → Json → α × Bool)
    (hstep : ∀ a k v, P a → P (setField a k v).1) (cur : α) (hcur : P cur) (data : Bytes) :
    P (Unmarshal (storeStruct setField) data cur).1 := by
  cases data with
  | invalid => exact hcur
  | json v => exact storeStruct_invariant P setField hstep cur hcur v

theorem filament_setField_inRange (fl : Filament) (key : String) (v : Json)
    (h : InRange fl.TotalWeightInGrams ∧ InRange fl.RemainingWeightInGrams) :
    InRange (fl.setField key v).1.TotalWeightInGrams ∧
      InRange (fl.setField key v).1.RemainingWeightInGrams := by
  unfold Filament.setField
  split_ifs
  · exact h
  · exact h
  · exact h
  · exact ⟨storeInt_inRange _ _ h.1, h.2⟩
  · exact ⟨h.1, storeInt_inRange _ _ h.2⟩
  · exact h

theorem printJob_setField_inRange (j : PrintJob) (key : String) (v : Json)
    (h : InRange j.PrintWeightInGrams) : InRange (j.setField key v).1.PrintWeightInGrams := by
  unfold PrintJob.setField
  split_ifs
  · exact h
  · exact h
  · exact h
  · exact h
  · exact storeInt_inRange _ _ h
  · exact h
  · exact h

theorem wellFormed_insert_filament (f : FSM) (k : String) (fl : Filament) (h : WellFormed f)
    (hfl : InRange fl.TotalWeightInGrams ∧ InRange fl.RemainingWeightInGrams) :
    WellFormed { f with Filaments := f.Filaments.insert k fl } := by
  refine ⟨fun k' fl' hk => ?_, h.2⟩
  by_cases e : k' = k
  · subst e
    rw [Finmap.lookup_insert] at hk
    cases hk
    exact hfl
  · rw [Finmap.lookup_insert_of_ne _ e] at hk
    exact h.1 k' fl' hk

theorem wellFormed_insert_job (f : FSM) (k : String) (j : PrintJob) (h : WellFormed f)
    (hj : InRange j.PrintWeightInGrams) :
    WellFormed { f with PrintJobs := f.PrintJobs.insert k j } := by
  refine ⟨h.1, fun k' j' hk => ?_⟩
  by_cases e : k' = k
  · subst e
    rw [Finmap.lookup_insert] at hk
    cases hk
    exact hj
  · rw [Finmap.lookup_insert_of_ne _ e] at hk
    exact h.2 k' j' hk

theorem apply_wellFormed (f : FSM) (logEntry : Bytes) (h : WellFormed f) :
    WellFormed (f.Apply logEntry).1 := by
  unfold FSM.Apply
  dsimp only
  split_ifs
  · exact h
  · exact h
  · exact ⟨h.1, h.2⟩
  · exact h
  · exact ⟨h.1, h.2⟩
  · exact h
  · exact wellFormed_insert_filament f _ _ h
      (unmarshal_invariant _ _ filament_setField_inRange _ (by decide) _)
  · exact h
  · exact wellFormed_insert_job f _ _ h
      (unmarshal_invariant (fun j : PrintJob => InRange j.PrintWeightInGrams) _
        printJob_setField_inRange _ (by decide) _)
  · exact h
  · split
    · rename_i job hjob
      exact wellFormed_insert_job f _ _ h (h.2 _ job hjob)
    · exact h
  · exact h
  · split
    · rename_i fl hfl
      refine wellFormed_insert_filament f _ _ h ⟨(h.1 _ fl hfl).1, ?_⟩
      dsimp only
      split_ifs
      · decide
      · exact inRange_wrapInt _
    · exact h
  · exact h

theorem reachable_wellFormed (f : FSM) (h : Reachable f) : WellFormed f := by
  induction h with
  | init =>
    exact ⟨fun k fl hk => by simp [FSM.empty] at hk, fun k j hk => by simp [FSM.empty] at hk⟩
  | step f e _ ih => exact apply_wellFormed f e ih

/-! ## Marshalling followed by decoding -/

theorem printer_roundtrip (p : Printer) :
    storeStruct Printer.setField Printer.zero p.Marshal = (p, true) := by
  cases p; rfl

theorem filament_roundtrip (fl : Filament)
    (h : InRange fl.TotalWeightInGrams ∧ InRange fl.RemainingWeightInGrams) :
    storeStruct Filament.setField Filament.zero fl.Marshal = (fl, true) := by
  obtain ⟨a, b, c, t, r⟩ := fl
  have h1 : minInt ≤ t ∧ t ≤ maxInt := h.1
  have h2 : minInt ≤ r ∧ r ≤ maxInt := h.2
  simp +decide [Filament.Marshal, storeStruct, Filament.setField, storeString, storeInt, h1, h2,
    Filament.zero]

theorem printJob_roundtrip (j : PrintJob) (h : InRange j.PrintWeightInGrams) :
    storeStruct PrintJob.setField PrintJob.zero j.Marshal = (j, true) := by
  obtain ⟨a, b, c, d, w, e⟩ := j
  have h1 : minInt ≤ w ∧ w ≤ maxInt := h
  simp +decide [PrintJob.Marshal, storeStruct, PrintJob.setField, storeString, storeInt, h1,
    PrintJob.zero]

theorem storeMap_fold {α : Type} (elem : Json → α × Bool) (enc : α → Json) (m : GoMap α)
    (h : ∀ k v, m.lookup k = some v → elem (enc v) = (v, true)) (ks : List String) :
    ∀ (m0 : GoMap α) (b : Bool),
      ((ks.filterMap fun k => (m.lookup k).map fun v => (k, enc v)).foldl
          (fun acc kv => let r := elem kv.2; (acc.1.insert kv.1 r.1, acc.2 && r.2))
          (m0, b)).2 = b ∧
      ∀ k, ((ks.filterMap fun k => (m.lookup k).map fun v => (k, enc v)).foldl
          (fun acc kv => let r := elem kv.2; (acc.1.insert kv.1 r.1, acc.2 && r.2))
          (m0, b)).1.lookup k =
        if k ∈ ks ∧ (m.lookup k).isSome then m.lookup k else m0.lookup k := by
  induction ks with
  | nil => intro m0 b; simp
  | cons k0 rest ih =>
    intro m0 b
    cases hk0 : m.lookup k0 with
    | none =>
      simp only [List.filterMap_cons, hk0, Option.map_none']
      refine ⟨(ih m0 b).1, fun k => ?_⟩
      rw [(ih m0 b).2 k]
      by_cases e : k = k0
      · subst e; simp [hk0]
      · simp [e]
    | some v0 =>
      simp only [List.filterMap_cons, hk0, Option.map_some', List.foldl_cons, h k0 v0 hk0,
        Bool.and_true]
      refine ⟨(ih _ b).1, fun k => ?_⟩
      rw [(ih _ b).2 k]
      by_cases e : k = k0
      · subst e
        simp [hk0]
      · simp [e, Finmap.lookup_insert_of_ne]

theorem storeMap_marshalMap {α : Type} (elem : Json → α × Bool) (enc : α → Json)
    (m m0 : GoMap α) (h : ∀ k v, m.lookup k = some v → elem (enc v) = (v, true)) :
    storeMap elem m0 (marshalMap enc m) = (m ∪ m0, true) := by
  unfold storeMap marshalMap
  have hf := storeMap_fold elem enc m h (m.keys.sort (· ≤ ·)) m0 true
  refine Prod.ext ?_ hf.1
  apply Finmap.ext_lookup
  intro k
  rw [hf.2 k]
  by_cases hk : k ∈ m
  · have : (m.lookup k).isSome := Finmap.lookup_isSome.mpr hk
    simp [Finmap.lookup_union_left hk, this, Finmap.mem_keys, hk]
  · simp [Finmap.lookup_union_right hk, Finmap.mem_keys, hk]

/-- What `Restore` makes of a persisted snapshot: every mapping of the
snapshot is merged into the mapping the replica already holds; entries of the
snapshot win, entries only the replica has stay. -/
theorem restore_persist (f g : FSM) (h : WellFormed f) :
    g.Restore f.Snapshot.Persist =
      (⟨f.Printers ∪ g.Printers, f.Filaments ∪ g.Filaments, f.PrintJobs ∪ g.PrintJobs⟩,
        true) := by
  have hp := storeMap_marshalMap (storeStruct Printer.setField Printer.zero) Printer.Marshal
    f.Printers g.Printers (fun _ v _ => printer_roundtrip v)
  have hf := storeMap_marshalMap (storeStruct Filament.setField Filament.zero) Filament.Marshal
    f.Filaments g.Filaments (fun k v hk => filament_roundtrip v (h.1 k v hk))
  have hj := storeMap_marshalMap (storeStruct PrintJob.setField PrintJob.zero) PrintJob.Marshal
    f.PrintJobs g.PrintJobs (fun k v hk => printJob_roundtrip v (h.2 k v hk))
  simp +decide [FSM.Restore, FSM.Snapshot, snapshot.Persist, Unmarshal, FSM.Marshal, storeStruct,
    FSM.setField, hp, hf, hj]

theorem leaderState_reachable : Reachable leaderState :=
  Reachable.step _ _ (Reachable.step _ _ (Reachable.step _ _ Reachable.init))

/-! ## C5: `Restore` -/

/-- C5 fails on the code. A replica holding printers `p1` and `p2` restores
the snapshot of a state in which `p1` has been deleted: `Restore` returns no
error, and the replica still holds `p1`, so it is not in the snapshot's state. -/
theorem restore_keeps_stale_entries :
    leaderState.Printers.lookup "p1" = none ∧
      staleReplica.Printers.lookup "p1" = some (printer "p1") ∧
      (staleReplica.Restore leaderState.Snapshot.Persist).2 = true ∧
      (staleReplica.Restore leaderState.Snapshot.Persist).1.Printers.lookup "p1" =
        some (printer "p1") ∧
      (staleReplica.Restore leaderState.Snapshot.Persist).1.Printers ≠ leaderState.Printers := by
  rw [restore_persist leaderState staleReplica (reachable_wellFormed _ leaderState_reachable)]
  decide

/-! ## C6: snapshot round trip -/

/-- C6. For every state `f` reachable by `FSM.Apply` from the empty state,
restoring the persisted snapshot of `f` into a fresh FSM with empty mappings
returns no error and yields exactly `f`. -/
theorem snapshot_round_trip (f : FSM) (h : Reachable f) :
    FSM.empty.Restore f.Snapshot.Persist = (f, true) := by
  rw [restore_persist f FSM.empty (reachable_wellFormed f h)]
  simp [FSM.empty, Finmap.union_empty]

/-- C6 at a concrete state: a printer, a spool with 600 g of 1000 g remaining
and a queued job, reached by four entries. -/
theorem snapshot_round_trip_witness :
    Reachable sampleState ∧
      sampleState.Filaments.lookup "f1" = some (spool 600) ∧
      FSM.empty.Restore sampleState.Snapshot.Persist = (sampleState, true) :=
  ⟨Reachable.step _ _
      (Reachable.step _ _ (Reachable.step _ _ (Reachable.step _ _ Reachable.init))),
    by decide,
    snapshot_round_trip sampleState
      (Reachable.step _ _
        (Reachable.step _ _ (Reachable.step _ _ (Reachable.step _ _ Reachable.init))))⟩

/-! ## C7: entries that do not decode -/

/-- C7. When the bytes of an entry do not decode to a command envelope, or
the operation of the envelope is none of the six kinds, or the payload does
not decode into the payload type of its kind, `FSM.Apply` returns and the
state is the one it was given: printers, filaments and jobs are unchanged. -/
theorem apply_skips_undecodable (f : FSM) (logEntry : Bytes)
    (h : (Unmarshal (storeStruct Cmd.setField) logEntry Cmd.zero).2 = false ∨
      (Unmarshal (storeStruct Cmd.setField) logEntry Cmd.zero).1.Op ∉ opKinds ∨
      payloadDecodes (Unmarshal (storeStruct Cmd.setField) logEntry Cmd.zero).1.Op
        (rawBytes (Unmarshal (storeStruct Cmd.setField) logEntry Cmd.zero).1.Payload) = false) :
    ∃ r, f.Apply logEntry = (f, r) := by
  unfold FSM.Apply
  dsimp only
  generalize Unmarshal (storeStruct Cmd.setField) logEntry Cmd.zero = cmd at h ⊢
  obtain ⟨⟨op, payload⟩, ok⟩ := cmd
  dsimp only at h ⊢
  rcases h with h | h | h
  · subst h
    exact ⟨_, rfl⟩
  · simp only [opKinds, List.mem_cons, List.mem_singleton, List.not_mem_nil, or_false,
      not_or] at h
    simp only [h, if_false]
    split_ifs <;> exact ⟨_, rfl⟩
  · cases ok with
    | false => exact ⟨_, rfl⟩
    | true =>
      by_cases e1 : op = "ADD_PRINTER"
      · subst e1
        simp only [payloadDecodes, if_true] at h
        simp [h]
      by_cases e2 : op = "DELETE_PRINTER"
      · subst e2
        simp +decide only [payloadDecodes, if_true, if_false] at h
        simp [h]
      by_cases e3 : op = "ADD_FILAMENT"
      · subst e3
        simp +decide only [payloadDecodes, if_true, if_false] at h
        simp [h]
      by_cases e4 : op = "ADD_JOB"
      · subst e4
        simp +decide only [payloadDecodes, if_true, if_false] at h
        simp [h]
      by_cases e5 : op = "UPDATE_JOB_STATUS"
      · subst e5
        simp +decide only [payloadDecodes, if_true, if_false] at h
        simp [h]
      by_cases e6 : op = "REDUCE_FILAMENT"
      · subst e6
        simp +decide only [payloadDecodes, if_true, if_false] at h
        simp [h]
      simp [e1, e2, e3, e4, e5, e6]

/-- C7 at three concrete entries: bytes that are not JSON, an envelope with
the unknown operation `RENAME_PRINTER`, and an `ADD_FILAMENT` whose total
weight is a JSON string. -/
theorem apply_skips_undecodable_witness :
    (Unmarshal (storeStruct Cmd.setField) Bytes.invalid Cmd.zero).2 = false ∧
      (∃ r, (spoolState 1000).Apply Bytes.invalid = (spoolState 1000, r)) ∧
      "RENAME_PRINTER" ∉ opKinds ∧
      (∃ r, (spoolState 1000).Apply (commandBytes "RENAME_PRINTER" (.str "p1")) =
        (spoolState 1000, r)) ∧
      payloadDecodes "ADD_FILAMENT"
          (.json (.obj [("id", .str "f1"), ("total_weight_in_grams", .str "heavy")])) = false ∧
      (∃ r, (spoolState 1000).Apply
          (commandBytes "ADD_FILAMENT"
            (.obj [("id", .str "f1"), ("total_weight_in_grams", .str "heavy")])) =
        (spoolState 1000, r)) :=
  ⟨rfl, apply_skips_undecodable (spoolState 1000) Bytes.invalid (Or.inl rfl),
    by decide,
    apply_skips_undecodable (spoolState 1000) (commandBytes "RENAME_PRINTER" (.str "p1"))
      (Or.inr (Or.inl (by decide))),
    by decide,
    apply_skips_undecodable (spoolState 1000)
      (commandBytes "ADD_FILAMENT"
        (.obj [("id", .str "f1"), ("total_weight_in_grams", .str "heavy")]))
      (Or.inr (Or.inr (by decide)))⟩

/-! ## C8: remaining weight against total weight -/

/-- C8 fails on the code. On a fresh leader the requests create printer `p1`,
create the 1000 g spool `f1`, create job `j1` with a print weight of -5 g, and
move `j1` to `Running` and to `Done`; every request is served, and the spool
ends with 1005 g remaining of a total of 1000 g. -/
theorem remaining_exceeds_total :
    (handleCreatePrinter freshLeader printerBody).2 = 201 ∧
      (handleCreateFilament (handleCreatePrinter freshLeader printerBody).1
        (filamentBody 1000)).2 = 201 ∧
      (handleCreatePrintJob shop (jobBody "j1" (-5))).2 = 201 ∧
      (handleUpdateJobStatus (shopWithJob (-5)) "j1" (statusBody "Running")).2 = 200 ∧
      (handleUpdateJobStatus (shopRunning (-5)) "j1" (statusBody "Done")).2 = 200 ∧
      (shopDone (-5)).fsm.Filaments.lookup "f1" = some ⟨"f1", "PLA", "red", 1000, 1005⟩ ∧
      ¬ ((1005 : Int) ≤ 1000) := by
  decide

/-! ## C9: job admission -/

/-- C9, as stated, fails on 64-bit overflow. After the handler has admitted a
job of -9223372036854775808 g, the spool `f1` has 1000 g remaining and the
pending usage is -9223372036854775808 g; a job of 5 g is not
greater than `1000 - (-9223372036854775808)`, yet the request is rejected and
nothing is appended to the log: the subtraction of the handler wraps to a
negative number. -/
theorem admission_overflow_counterexample :
    (handleCreatePrintJob shop (jobBody "j0" (-9223372036854775808))).2 = 201 ∧
      negativeStore.GetPrinter "p1" = some (printer "p1") ∧
      negativeStore.GetFilament "f1" = some (spool 1000) ∧
      negativeStore.GetPendingFilamentUsage "f1" = -9223372036854775808 ∧
      ¬ ((5 : Int) > 1000 - -9223372036854775808) ∧
      (handleCreatePrintJob negativeStore (jobBody "j2" 5)).2 = 400 ∧
      (handleCreatePrintJob negativeStore (jobBody "j2" 5)).1.raft.log.length =
        negativeStore.raft.log.length := by
  decide

/-- C9, amended. For a request that binds to `job`: an unknown printer or an
unknown filament is answered 400 with the store unchanged. When both exist,
the request is answered 400 with the store unchanged if the print weight is
greater than remaining minus pending usage, the subtraction taken in 64-bit
`int` arithmetic (it is the exact difference whenever that is in the range of
`int`); otherwise the handler submits `ADD_JOB` carrying the job with status
`Queued`, which on the leader is appended to the log and applied, storing the
job as `Queued`. -/
theorem create_print_job_admission (store : RaftStore) (body : Bytes) (job : PrintJob)
    (hb : ShouldBindJSON (storeStruct PrintJob.setField) body PrintJob.zero = (job, true)) :
    (store.GetPrinter job.PrinterID = none ∨ store.GetFilament job.FilamentID = none →
      handleCreatePrintJob store body = (store, 400)) ∧
    (∀ p fl, store.GetPrinter job.PrinterID = some p →
      store.GetFilament job.FilamentID = some fl →
      (job.PrintWeightInGrams >
          intSub fl.RemainingWeightInGrams (store.GetPendingFilamentUsage job.FilamentID) →
        handleCreatePrintJob store body = (store, 400)) ∧
      (¬ job.PrintWeightInGrams >
          intSub fl.RemainingWeightInGrams (store.GetPendingFilamentUsage job.FilamentID) →
        handleCreatePrintJob store body =
          if store.raft.leader = true then
            (⟨{ store.raft with
                log := store.raft.log ++
                  [commandBytes "ADD_JOB" ({ job with Status := "Queued" } : PrintJob).Marshal] },
              (store.fsm.Apply
                (commandBytes "ADD_JOB" ({ job with Status := "Queued" } : PrintJob).Marshal)).1⟩,
              201)
          else (store, 500)) ∧
      (store.fsm.Apply
          (commandBytes "ADD_JOB"
            ({ job with Status := "Queued" } : PrintJob).Marshal)).1.PrintJobs.lookup job.ID =
        some { job with Status := "Queued" } ∧
      (InRange (fl.RemainingWeightInGrams - store.GetPendingFilamentUsage job.FilamentID) →
        intSub fl.RemainingWeightInGrams (store.GetPendingFilamentUsage job.FilamentID) =
          fl.RemainingWeightInGrams - store.GetPendingFilamentUsage job.FilamentID)) := by
  have hin : InRange job.PrintWeightInGrams := by
    have := unmarshal_invariant (fun j : PrintJob => InRange j.PrintWeightInGrams) _
      printJob_setField_inRange PrintJob.zero (by decide) body
    unfold ShouldBindJSON at hb
    rw [hb] at this
    exact this
  constructor
  · intro h
    unfold handleCreatePrintJob
    rw [hb]
    dsimp only
    rcases h with h | h
    · rw [h]; simp
    · cases hp : store.GetPrinter job.PrinterID with
      | none => simp
      | some p => rw [h]; simp
  · intro p fl hp hf
    refine ⟨fun hgt => ?_, fun hle => ?_, ?_, fun hr => wrapInt_of_inRange _ hr⟩
    · unfold handleCreatePrintJob
      rw [hb]
      dsimp only
      rw [hp, hf]
      simp [hgt]
    · unfold handleCreatePrintJob
      rw [hb]
      dsimp only
      rw [hp, hf]
      simp only [hle, if_false]
      unfold RaftStore.CreatePrintJob RaftStore.applyCommand
      cases hl : store.raft.leader <;> simp [hl]
    · have hq : InRange ({ job with Status := "Queued" } : PrintJob).PrintWeightInGrams := hin
      have hdec : Unmarshal (storeStruct PrintJob.setField)
          (.json ({ job with Status := "Queued" } : PrintJob).Marshal) PrintJob.zero =
          (({ job with Status := "Queued" } : PrintJob), true) := by
        simp only [Unmarshal]
        exact printJob_roundtrip _ hq
      rw [apply_add_job_eq store.fsm _ _ _ true (commandBytes_isCommand _ _) hdec]
      simp

/-- The amended C9 on the scenario of the specification: with 1000 g remaining
and a queued job of 400 g, a job of 700 g is rejected; once the first job is
done and 600 g remain, 700 g is still rejected and 500 g is admitted and
stored as `Queued`, whatever status the request asked for. -/
theorem create_print_job_admission_witness :
    ShouldBindJSON (storeStruct PrintJob.setField) (jobBody "j2" 700) PrintJob.zero =
        (⟨"j2", "p1", "f1", "a.gcode", 700, "Done"⟩, true) ∧
      (shopWithJob 400).GetFilament "f1" = some (spool 1000) ∧
      (shopWithJob 400).GetPendingFilamentUsage "f1" = 400 ∧
      handleCreatePrintJob (shopWithJob 400) (jobBody "j2" 700) = (shopWithJob 400, 400) ∧
      (shopDone 400).GetFilament "f1" = some (spool 600) ∧
      (shopDone 400).GetPendingFilamentUsage "f1" = 0 ∧
      handleCreatePrintJob (shopDone 400) (jobBody "j2" 700) = (shopDone 400, 400) ∧
      (handleCreatePrintJob (shopDone 400) (jobBody "j2" 500)).2 = 201 ∧
      (handleCreatePrintJob (shopDone 400) (jobBody "j2" 500)).1.fsm.PrintJobs.lookup "j2" =
        some ⟨"j2", "p1", "f1", "a.gcode", 500, "Queued"⟩ :=
  ⟨by decide, by decide, by decide,
    ((create_print_job_admission (shopWithJob 400) (jobBody "j2" 700)
      ⟨"j2", "p1", "f1", "a.gcode", 700, "Done"⟩ (by decide)).2 (printer "p1") (spool 1000)
      (by decide) (by decide)).1 (by decide),
    by decide, by decide,
    ((create_print_job_admission (shopDone 400) (jobBody "j2" 700)
      ⟨"j2", "p1", "f1", "a.gcode", 700, "Done"⟩ (by decide)).2 (printer "p1") (spool 600)
      (by decide) (by decide)).1 (by decide),
    by decide, by decide⟩

/-! ## C10: weight validation -/

/-- Filament creation validates the weight: a request whose total weight is
not positive is answered 400 and the store, its log included, is unchanged. -/
theorem create_filament_rejects_nonpositive (store : RaftStore) (body : Bytes)
    (h : (ShouldBindJSON (storeStruct Filament.setField) body
      Filament.zero).1.TotalWeightInGrams ≤ 0) :
    handleCreateFilament store body = (store, 400) := by
  unfold handleCreateFilament
  dsimp only
  split_ifs <;> rfl

/-- C10 fails on the code for print jobs. With printer `p1` and the 1000 g
spool `f1` in place, a job creation request with a print weight of -5 g is
served with 201, its `ADD_JOB` entry is appended to the log and the job is
stored; a weight of 0 g is served with 201 as well. Filament creation with a
total weight of 0 g or -1 g is rejected and appends nothing. -/
theorem nonpositive_job_weight_admitted :
    (handleCreatePrintJob shop (jobBody "j1" (-5))).2 = 201 ∧
      (handleCreatePrintJob shop (jobBody "j1" (-5))).1.raft.log.length =
        shop.raft.log.length + 1 ∧
      (handleCreatePrintJob shop (jobBody "j1" (-5))).1.fsm.PrintJobs.lookup "j1" =
        some ⟨"j1", "p1", "f1", "a.gcode", -5, "Queued"⟩ ∧
      (handleCreatePrintJob shop (jobBody "j1" 0)).2 = 201 ∧
      (handleCreatePrintJob shop (jobBody "j1" 0)).1.raft.log.length =
        shop.raft.log.length + 1 ∧
      (handleCreateFilament freshLeader (filamentBody 0)).2 = 400 ∧
      (handleCreateFilament freshLeader (filamentBody 0)).1.raft.log.length = 0 ∧
      (handleCreateFilament freshLeader (filamentBody (-1))).2 = 400 ∧
      (handleCreateFilament freshLeader (filamentBody (-1))).1.raft.log.length = 0 := by
  decide

/-! ## More facts about maps and `FSM.Apply` -/

theorem erase_of_lookup_none {α : Type} (m : GoMap α) (k : String) (h : m.lookup k = none) :
    m.erase k = m := by
  apply Finmap.ext_lookup
  intro x
  by_cases e : x = k
  · subst e; rw [Finmap.lookup_erase, h]
  · rw [Finmap.lookup_erase_ne e]

theorem erase_erase_self {α : Type} (m : GoMap α) (k : String) :
    (m.erase k).erase k = m.erase k :=
  erase_of_lookup_none _ _ (Finmap.lookup_erase _ _)

theorem isCommand_of_decoded (logEntry : Bytes)
    (h : (Unmarshal (storeStruct Cmd.setField) logEntry Cmd.zero).2 = true) :
    logEntry.IsCommand (Unmarshal (storeStruct Cmd.setField) logEntry Cmd.zero).1.Op
      (rawBytes (Unmarshal (storeStruct Cmd.setField) logEntry Cmd.zero).1.Payload) :=
  ⟨_, Prod.ext rfl h, rfl, rfl⟩

/-- Every way in which `FSM.Apply` can change the state. -/
theorem apply_cases (f : FSM) (logEntry : Bytes) :
    (f.Apply logEntry).1 = f ∨
    (∃ p : Printer, (f.Apply logEntry).1 = { f with Printers := f.Printers.insert p.ID p }) ∨
    (∃ id : String, (f.Apply logEntry).1 = { f with Printers := f.Printers.erase id }) ∨
    (∃ fl : Filament,
      (f.Apply logEntry).1 = { f with Filaments := f.Filaments.insert fl.ID fl }) ∨
    (∃ j : PrintJob, (f.Apply logEntry).1 = { f with PrintJobs := f.PrintJobs.insert j.ID j }) ∨
    (∃ (id s : String) (job : PrintJob), f.PrintJobs.lookup id = some job ∧
      (f.Apply logEntry).1 =
        { f with PrintJobs := f.PrintJobs.insert id { job with Status := s } }) ∨
    (∃ (id : String) (w : Int) (fl : Filament), f.Filaments.lookup id = some fl ∧
      (f.Apply logEntry).1 =
        { f with
          Filaments := f.Filaments.insert id
            { fl with
              RemainingWeightInGrams := max 0 (intSub fl.RemainingWeightInGrams w) } }) := by
  cases hd : (Unmarshal (storeStruct Cmd.setField) logEntry Cmd.zero).2 with
  | false => rw [apply_invalid_envelope f logEntry hd]; exact Or.inl rfl
  | true =>
    have hc := isCommand_of_decoded logEntry hd
    generalize (Unmarshal (storeStruct Cmd.setField) logEntry Cmd.zero).1.Op = op at hc
    generalize rawBytes (Unmarshal (storeStruct Cmd.setField) logEntry Cmd.zero).1.Payload =
      payload at hc
    by_cases e1 : op = "ADD_PRINTER"
    · subst e1
      rcases hdec : Unmarshal (storeStruct Printer.setField) payload Printer.zero with ⟨p, ok⟩
      rw [apply_add_printer_eq f logEntry payload p ok hc hdec]
      cases ok
      · exact Or.inl rfl
      · exact Or.inr (Or.inl ⟨p, rfl⟩)
    by_cases e2 : op = "DELETE_PRINTER"
    · subst e2
      rcases hdec : Unmarshal storeString payload "" with ⟨p, ok⟩
      rw [apply_delete_printer_eq f logEntry payload p ok hc hdec]
      cases ok
      · exact Or.inl rfl
      · exact Or.inr (Or.inr (Or.inl ⟨p, rfl⟩))
    by_cases e3 : op = "ADD_FILAMENT"
    · subst e3
      rcases hdec : Unmarshal (storeStruct Filament.setField) payload Filament.zero with
        ⟨p, ok⟩
      rw [apply_add_filament_eq f logEntry payload p ok hc hdec]
      cases ok
      · exact Or.inl rfl
      · exact Or.inr (Or.inr (Or.inr (Or.inl ⟨p, rfl⟩)))
    by_cases e4 : op = "ADD_JOB"
    · subst e4
      rcases hdec : Unmarshal (storeStruct PrintJob.setField) payload PrintJob.zero with
        ⟨p, ok⟩
      rw [apply_add_job_eq f logEntry payload p ok hc hdec]
      cases ok
      · exact Or.inl rfl
      · exact Or.inr (Or.inr (Or.inr (Or.inr (Or.inl ⟨p, rfl⟩))))
    by_cases e5 : op = "UPDATE_JOB_STATUS"
    · subst e5
      rcases hdec : Unmarshal (storeStruct StatusUpdate.setField) payload ⟨"", ""⟩ with
        ⟨u, ok⟩
      rw [apply_update_job_status_eq f logEntry payload u ok hc hdec]
      cases ok
      · exact Or.inl rfl
      · cases hl : f.PrintJobs.lookup u.JobID with
        | none => exact Or.inl rfl
        | some job =>
          exact Or.inr (Or.inr (Or.inr (Or.inr (Or.inr
            (Or.inl ⟨u.JobID, u.Status, job, hl, rfl⟩)))))
    by_cases e6 : op = "REDUCE_FILAMENT"
    · subst e6
      rcases hdec : Unmarshal (storeStruct Reduction.setField) payload ⟨"", 0⟩ with ⟨r, ok⟩
      cases ok
      · rw [apply_reduce_filament_failed f logEntry payload hc (by rw [hdec])]
        exact Or.inl rfl
      · obtain ⟨id, w⟩ := r
        rw [apply_reduce_filament_eq f logEntry payload id w hc hdec]
        cases hl : f.Filaments.lookup id with
        | none => exact Or.inl rfl
        | some fl =>
          exact Or.inr (Or.inr (Or.inr (Or.inr (Or.inr (Or.inr ⟨id, w, fl, hl, rfl⟩)))))
    · have hu : op ∉ ["ADD_PRINTER", "DELETE_PRINTER", "ADD_FILAMENT", "ADD_JOB",
          "UPDATE_JOB_STATUS", "REDUCE_FILAMENT"] := by simp [e1, e2, e3, e4, e5, e6]
      rw [apply_unknown_op _ logEntry payload op hc hu]
      exact Or.inl rfl

/-! ## C12: `DELETE_PRINTER` -/

/-- C12. `FSM.Apply` of a `DELETE_PRINTER` entry returns nil. When the printer
id is absent the state is unchanged; when it is present that printer is
removed and every other printer, the filaments and the jobs are unchanged.
Applying the same entry a second time changes nothing more. -/
theorem apply_delete_printer (f : FSM) (logEntry payload : Bytes) (id : String)
    (hop : logEntry.IsCommand "DELETE_PRINTER" payload)
    (hp : Unmarshal storeString payload "" = (id, true)) :
    (f.Apply logEntry).2 = ApplyResult.nil ∧
      (f.Printers.lookup id = none → (f.Apply logEntry).1 = f) ∧
      (∀ p, f.Printers.lookup id = some p →
        (f.Apply logEntry).1.Printers.lookup id = none ∧
        (∀ k, k ≠ id → (f.Apply logEntry).1.Printers.lookup k = f.Printers.lookup k) ∧
        (f.Apply logEntry).1.Filaments = f.Filaments ∧
        (f.Apply logEntry).1.PrintJobs = f.PrintJobs) ∧
      (f.Apply logEntry).1.Apply logEntry = f.Apply logEntry := by
  have h1 := apply_delete_printer_eq f logEntry payload id true hop hp
  have h2 := apply_delete_printer_eq (f.Apply logEntry).1 logEntry payload id true hop hp
  simp only [Bool.true_eq_false, if_false] at h1 h2
  rw [h2, h1]
  refine ⟨rfl, fun hn => ?_,
    fun p _ => ⟨Finmap.lookup_erase _ _, fun k hk => Finmap.lookup_erase_ne hk, rfl, rfl⟩, ?_⟩
  · show ({ f with Printers := f.Printers.erase id } : FSM) = f
    rw [erase_of_lookup_none _ _ hn]
  · show (({ f with Printers := (f.Printers.erase id).erase id } : FSM), ApplyResult.nil) = _
    rw [erase_erase_self]

/-- C12 at concrete inputs: deleting `p1` from a state that holds `p1` and
`p2` removes `p1` and keeps `p2`; deleting it again, or deleting the unknown
`p9`, changes nothing. -/
theorem apply_delete_printer_witness :
    (deleteEntry "p1").IsCommand "DELETE_PRINTER" (.json (.str "p1")) ∧
      staleReplica.Printers.lookup "p1" = some (printer "p1") ∧
      (staleReplica.Apply (deleteEntry "p1")).1.Printers.lookup "p1" = none ∧
      (staleReplica.Apply (deleteEntry "p1")).1.Printers.lookup "p2" = some (printer "p2") ∧
      (staleReplica.Apply (deleteEntry "p1")).1.Apply (deleteEntry "p1") =
        staleReplica.Apply (deleteEntry "p1") ∧
      staleReplica.Printers.lookup "p9" = none ∧
      (staleReplica.Apply (deleteEntry "p9")).1 = staleReplica :=
  ⟨⟨_, rfl, rfl, rfl⟩, by decide,
    ((apply_delete_printer staleReplica (deleteEntry "p1") _ "p1" ⟨_, rfl, rfl, rfl⟩
      rfl).2.2.1 (printer "p1") (by decide)).1,
    by decide,
    (apply_delete_printer staleReplica (deleteEntry "p1") _ "p1" ⟨_, rfl, rfl, rfl⟩ rfl).2.2.2,
    by decide,
    (apply_delete_printer staleReplica (deleteEntry "p9") _ "p9" ⟨_, rfl, rfl, rfl⟩
      rfl).2.1 (by decide)⟩

/-! ## C13: replay of an entry -/

/-- C13, as stated, fails for `REDUCE_FILAMENT`: applied once to the 1000 g
spool, a reduction by 400 g leaves 600 g; applied a second time, the same
entry leaves 200 g. -/
theorem replay_reduce_counterexample :
    (reduceEntry "f1" 400).IsCommand "REDUCE_FILAMENT"
        (.json (.obj [("filament_id", .str "f1"), ("weight", .num 400)])) ∧
      ((spoolState 1000).Apply (reduceEntry "f1" 400)).1.Filaments.lookup "f1" =
        some (spool 600) ∧
      (((spoolState 1000).Apply (reduceEntry "f1" 400)).1.Apply
          (reduceEntry "f1" 400)).1.Filaments.lookup "f1" = some (spool 200) ∧
      (((spoolState 1000).Apply (reduceEntry "f1" 400)).1.Apply (reduceEntry "f1" 400)).1 ≠
        ((spoolState 1000).Apply (reduceEntry "f1" 400)).1 :=
  ⟨⟨_, rfl, rfl, rfl⟩, by decide, by decide, by decide⟩

/-- C13, amended. Re-invoking `FSM.Apply` with the same entry yields the same
state and the same result as applying it once for every entry that is not a
`REDUCE_FILAMENT` whose payload decodes: the five other kinds, and every entry
that is skipped. A `REDUCE_FILAMENT` entry is a relative decrement and is
applied anew: on an existing filament with `r` grams remaining the second
application leaves `max(0, max(0, r - w) - w)`, in 64-bit `int` arithmetic. -/
theorem apply_replay (f : FSM) (logEntry : Bytes) :
    ((∀ payload, logEntry.IsCommand "REDUCE_FILAMENT" payload →
        (Unmarshal (storeStruct Reduction.setField) payload ⟨"", 0⟩).2 = false) →
      (f.Apply logEntry).1.Apply logEntry = f.Apply logEntry) ∧
    (∀ (payload : Bytes) (id : String) (w : Int) (fl : Filament),
      logEntry.IsCommand "REDUCE_FILAMENT" payload →
      Unmarshal (storeStruct Reduction.setField) payload ⟨"", 0⟩ = (⟨id, w⟩, true) →
      f.Filaments.lookup id = some fl →
      ((f.Apply logEntry).1.Apply logEntry).1.Filaments.lookup id =
        some { fl with
          RemainingWeightInGrams :=
            max 0 (intSub (max 0 (intSub fl.RemainingWeightInGrams w)) w) }) := by
  constructor
  · intro h
    cases hd : (Unmarshal (storeStruct Cmd.setField) logEntry Cmd.zero).2 with
    | false => rw [apply_invalid_envelope f logEntry hd, apply_invalid_envelope f logEntry hd]
    | true =>
      have hc := isCommand_of_decoded logEntry hd
      generalize (Unmarshal (storeStruct Cmd.setField) logEntry Cmd.zero).1.Op = op at hc
      generalize rawBytes (Unmarshal (storeStruct Cmd.setField) logEntry Cmd.zero).1.Payload =
        payload at hc
      by_cases e1 : op = "ADD_PRINTER"
      · subst e1
        rcases hdec : Unmarshal (storeStruct Printer.setField) payload Printer.zero with
          ⟨p, ok⟩
        have a1 := fun g => apply_add_printer_eq g logEntry payload p ok hc hdec
        rw [a1 (f.Apply logEntry).1, a1 f]
        cases ok
        · rfl
        · simp [Finmap.insert_insert]
      by_cases e2 : op = "DELETE_PRINTER"
      · subst e2
        rcases hdec : Unmarshal storeString payload "" with ⟨p, ok⟩
        have a1 := fun g => apply_delete_printer_eq g logEntry payload p ok hc hdec
        rw [a1 (f.Apply logEntry).1, a1 f]
        cases ok
        · rfl
        · simp [erase_erase_self]
      by_cases e3 : op = "ADD_FILAMENT"
      · subst e3
        rcases hdec : Unmarshal (storeStruct Filament.setField) payload Filament.zero with
          ⟨p, ok⟩
        have a1 := fun g => apply_add_filament_eq g logEntry payload p ok hc hdec
        rw [a1 (f.Apply logEntry).1, a1 f]
        cases ok
        · rfl
        · simp [Finmap.insert_insert]
      by_cases e4 : op = "ADD_JOB"
      · subst e4
        rcases hdec : Unmarshal (storeStruct PrintJob.setField) payload PrintJob.zero with
          ⟨p, ok⟩
        have a1 := fun g => apply_add_job_eq g logEntry payload p ok hc hdec
        rw [a1 (f.Apply logEntry).1, a1 f]
        cases ok
        · rfl
        · simp [Finmap.insert_insert]
      by_cases e5 : op = "UPDATE_JOB_STATUS"
      · subst e5
        rcases hdec : Unmarshal (storeStruct StatusUpdate.setField) payload ⟨"", ""⟩ with
          ⟨u, ok⟩
        have a1 := fun g => apply_update_job_status_eq g logEntry payload u ok hc hdec
        rw [a1 (f.Apply logEntry).1, a1 f]
        cases ok
        · rfl
        · cases hl : f.PrintJobs.lookup u.JobID with
          | none => simp [hl]
          | some job => simp [hl, Finmap.lookup_insert, Finmap.insert_insert]
      by_cases e6 : op = "REDUCE_FILAMENT"
      · subst e6
        have hf := h payload hc
        rw [apply_reduce_filament_failed _ logEntry payload hc hf,
          apply_reduce_filament_failed _ logEntry payload hc hf]
      · have hu : op ∉ ["ADD_PRINTER", "DELETE_PRINTER", "ADD_FILAMENT", "ADD_JOB",
            "UPDATE_JOB_STATUS", "REDUCE_FILAMENT"] := by simp [e1, e2, e3, e4, e5, e6]
        rw [apply_unknown_op _ logEntry payload op hc hu,
          apply_unknown_op _ logEntry payload op hc hu]
  · intro payload id w fl hc hdec hl
    rw [apply_reduce_filament_eq (f.Apply logEntry).1 logEntry payload id w hc hdec,
      apply_reduce_filament_eq f logEntry payload id w hc hdec, hl]
    simp [Finmap.lookup_insert]

/-- The amended C13 at concrete inputs: replaying the creation of job `j1`,
and replaying a status update, changes nothing. -/
theorem apply_replay_witness :
    ((spoolState 1000).Apply (commandBytes "ADD_JOB" (job1 "Queued").Marshal)).1.Apply
        (commandBytes "ADD_JOB" (job1 "Queued").Marshal) =
      (spoolState 1000).Apply (commandBytes "ADD_JOB" (job1 "Queued").Marshal) ∧
    (sampleState.Apply (statusEntry "j1" "Running")).1.Apply (statusEntry "j1" "Running") =
      sampleState.Apply (statusEntry "j1" "Running") :=
  ⟨(apply_replay (spoolState 1000) (commandBytes "ADD_JOB" (job1 "Queued").Marshal)).1
      (fun payload h => absurd h (by
        rintro ⟨c, hc, ho, _⟩
        cases hc
        exact absurd ho (by decide))),
    (apply_replay sampleState (statusEntry "j1" "Running")).1
      (fun payload h => absurd h (by
        rintro ⟨c, hc, ho, _⟩
        cases hc
        exact absurd ho (by decide)))⟩

/-! ## C15: reductions never make a spool negative -/

theorem reduce_step_nonneg (f : FSM) (logEntry payload : Bytes)
    (hc : logEntry.IsCommand "REDUCE_FILAMENT" payload)
    (h0 : ∀ k fl, f.Filaments.lookup k = some fl → 0 ≤ fl.RemainingWeightInGrams) :
    ∀ k fl, (f.Apply logEntry).1.Filaments.lookup k = some fl →
      0 ≤ fl.RemainingWeightInGrams := by
  rcases hdec : Unmarshal (storeStruct Reduction.setField) payload ⟨"", 0⟩ with ⟨r, ok⟩
  cases ok
  · rw [apply_reduce_filament_failed f logEntry payload hc (by rw [hdec])]
    exact h0
  · obtain ⟨id, w⟩ := r
    rw [apply_reduce_filament_eq f logEntry payload id w hc hdec]
    cases hl : f.Filaments.lookup id with
    | none => exact h0
    | some fl0 =>
      intro k fl hk
      by_cases e : k = id
      · subst e
        rw [Finmap.lookup_insert] at hk
        cases hk
        exact le_max_left _ _
      · rw [Finmap.lookup_insert_of_ne _ e] at hk
        exact h0 k fl hk

/-- C15. From a state in which every filament has a remaining weight of at
least 0, after any finite sequence of `REDUCE_FILAMENT` entries, whatever
their weights, every filament still has a remaining weight of at least 0. -/
theorem reduce_keeps_nonnegative (f : FSM) (entries : List Bytes)
    (h0 : ∀ k fl, f.Filaments.lookup k = some fl → 0 ≤ fl.RemainingWeightInGrams)
    (hr : ∀ e ∈ entries, ∃ payload, e.IsCommand "REDUCE_FILAMENT" payload) :
    ∀ k fl, (f.applyAll entries).Filaments.lookup k = some fl →
      0 ≤ fl.RemainingWeightInGrams := by
  induction entries generalizing f with
  | nil => exact h0
  | cons e rest ih =>
    obtain ⟨payload, hc⟩ := hr e (List.mem_cons_self _ _)
    exact ih (f.Apply e).1 (reduce_step_nonneg f e payload hc h0)
      (fun e' he' => hr e' (List.mem_cons_of_mem _ he'))

/-- C15 at a concrete input: two jobs of 700 g were admitted against the same
1000 g; the two reductions leave the spool at 0 g, not at -400 g. -/
theorem reduce_keeps_nonnegative_witness :
    (0 : Int) ≤ (spool 1000).RemainingWeightInGrams ∧
      ((spoolState 1000).applyAll [reduceEntry "f1" 700, reduceEntry "f1" 700]).Filaments.lookup
          "f1" = some (spool 0) ∧
      (0 : Int) ≤ (spool 0).RemainingWeightInGrams :=
  ⟨by decide, by decide,
    reduce_keeps_nonnegative (spoolState 1000) [reduceEntry "f1" 700, reduceEntry "f1" 700]
      (by
        intro k fl hk
        by_cases e : k = "f1"
        · subst e
          have : (spoolState 1000).Filaments.lookup "f1" = some (spool 1000) := by decide
          rw [this] at hk
          cases hk
          decide
        · have : (spoolState 1000).Filaments.lookup k = none := by
            have hs : (spoolState 1000).Filaments =
                (∅ : GoMap Filament).insert "f1" (spool 1000) := by decide
            rw [hs, Finmap.lookup_insert_of_ne _ e]
            rfl
          rw [this] at hk
          cases hk)
      (by
        intro e he
        simp only [List.mem_cons, List.mem_singleton, List.not_mem_nil, or_false, or_self] at he
        subst he
        exact ⟨_, _, rfl, rfl, rfl⟩)
      "f1" (spool 0) (by decide)⟩

/-! ## C17: `UPDATE_JOB_STATUS` -/

/-- C17. `FSM.Apply` of an `UPDATE_JOB_STATUS` entry carrying job id `id` and
status `s` sets the status of an existing job to `s`, whatever `s` and the
current status are; the other fields of the job, every other job, the
printers and the filaments are unchanged. When no job has that id the state is
unchanged and no job is created. -/
theorem apply_update_job_status (f : FSM) (logEntry payload : Bytes) (id s : String)
    (hop : logEntry.IsCommand "UPDATE_JOB_STATUS" payload)
    (hp : Unmarshal (storeStruct StatusUpdate.setField) payload ⟨"", ""⟩ = (⟨id, s⟩, true)) :
    (∀ job, f.PrintJobs.lookup id = some job →
      (f.Apply logEntry).1.PrintJobs.lookup id =
          some ⟨job.ID, job.PrinterID, job.FilamentID, job.FilePath, job.PrintWeightInGrams,
            s⟩ ∧
        (∀ k, k ≠ id → (f.Apply logEntry).1.PrintJobs.lookup k = f.PrintJobs.lookup k) ∧
        (f.Apply logEntry).1.Printers = f.Printers ∧
        (f.Apply logEntry).1.Filaments = f.Filaments) ∧
      (f.PrintJobs.lookup id = none →
        (f.Apply logEntry).1 = f ∧ (f.Apply logEntry).1.PrintJobs.lookup id = none) := by
  have h1 := apply_update_job_status_eq f logEntry payload ⟨id, s⟩ true hop hp
  simp only [Bool.true_eq_false, if_false] at h1
  rw [h1]
  constructor
  · intro job hj
    rw [hj]
    exact ⟨Finmap.lookup_insert _, fun k hk => Finmap.lookup_insert_of_ne _ hk, rfl, rfl⟩
  · intro hn
    rw [hn]
    exact ⟨rfl, hn⟩

/-- C17 at concrete inputs: the state machine moves the finished job `j1` back
to `Running`, a transition the table forbids, and ignores an update of the
unknown job `j9`. -/
theorem apply_update_job_status_witness :
    isValidStatusTransition "Done" "Running" = false ∧
      (jobStore "Done").fsm.PrintJobs.lookup "j1" = some (job1 "Done") ∧
      ((jobStore "Done").fsm.Apply (statusEntry "j1" "Running")).1.PrintJobs.lookup "j1" =
        some (job1 "Running") ∧
      (jobStore "Done").fsm.PrintJobs.lookup "j9" = none ∧
      ((jobStore "Done").fsm.Apply (statusEntry "j9" "Running")).1 = (jobStore "Done").fsm :=
  ⟨by decide, by decide,
    ((apply_update_job_status (jobStore "Done").fsm (statusEntry "j1" "Running") _ "j1"
      "Running" ⟨_, rfl, rfl, rfl⟩ rfl).1 (job1 "Done") (by decide)).1,
    by decide,
    ((apply_update_job_status (jobStore "Done").fsm (statusEntry "j9" "Running") _ "j9"
      "Running" ⟨_, rfl, rfl, rfl⟩ rfl).2 (by decide)).1⟩

/-! ## C18: each command touches its own mapping -/

/-- C18. `ADD_PRINTER` and `DELETE_PRINTER` entries leave the filaments and
the jobs unchanged, `ADD_FILAMENT` and `REDUCE_FILAMENT` entries leave the
printers and the jobs unchanged, `ADD_JOB` and `UPDATE_JOB_STATUS` entries
leave the printers and the filaments unchanged, and no entry whatsoever
removes a key from the filaments or from the jobs. -/
theorem apply_frame (f : FSM) (logEntry : Bytes) :
    (∀ payload,
      logEntry.IsCommand "ADD_PRINTER" payload ∨ logEntry.IsCommand "DELETE_PRINTER" payload →
      (f.Apply logEntry).1.Filaments = f.Filaments ∧
        (f.Apply logEntry).1.PrintJobs = f.PrintJobs) ∧
    (∀ payload,
      logEntry.IsCommand "ADD_FILAMENT" payload ∨
        logEntry.IsCommand "REDUCE_FILAMENT" payload →
      (f.Apply logEntry).1.Printers = f.Printers ∧
        (f.Apply logEntry).1.PrintJobs = f.PrintJobs) ∧
    (∀ payload,
      logEntry.IsCommand "ADD_JOB" payload ∨ logEntry.IsCommand "UPDATE_JOB_STATUS" payload →
      (f.Apply logEntry).1.Printers = f.Printers ∧
        (f.Apply logEntry).1.Filaments = f.Filaments) ∧
    (∀ k, k ∈ f.Filaments → k ∈ (f.Apply logEntry).1.Filaments) ∧
    (∀ k, k ∈ f.PrintJobs → k ∈ (f.Apply logEntry).1.PrintJobs) := by
  refine ⟨fun payload h => ?_, fun payload h => ?_, fun payload h => ?_, ?_⟩
  · rcases h with hc | hc
    · rcases hdec : Unmarshal (storeStruct Printer.setField) payload Printer.zero with
        ⟨p, ok⟩
      rw [apply_add_printer_eq f logEntry payload p ok hc hdec]
      cases ok <;> exact ⟨rfl, rfl⟩
    · rcases hdec : Unmarshal storeString payload "" with ⟨p, ok⟩
      rw [apply_delete_printer_eq f logEntry payload p ok hc hdec]
      cases ok <;> exact ⟨rfl, rfl⟩
  · rcases h with hc | hc
    · rcases hdec : Unmarshal (storeStruct Filament.setField) payload Filament.zero with
        ⟨p, ok⟩
      rw [apply_add_filament_eq f logEntry payload p ok hc hdec]
      cases ok <;> exact ⟨rfl, rfl⟩
    · rcases hdec : Unmarshal (storeStruct Reduction.setField) payload ⟨"", 0⟩ with ⟨r, ok⟩
      cases ok
      · rw [apply_reduce_filament_failed f logEntry payload hc (by rw [hdec])]
        exact ⟨rfl, rfl⟩
      · obtain ⟨id, w⟩ := r
        rw [apply_reduce_filament_eq f logEntry payload id w hc hdec]
        cases f.Filaments.lookup id <;> exact ⟨rfl, rfl⟩
  · rcases h with hc | hc
    · rcases hdec : Unmarshal (storeStruct PrintJob.setField) payload PrintJob.zero with
        ⟨p, ok⟩
      rw [apply_add_job_eq f logEntry payload p ok hc hdec]
      cases ok <;> exact ⟨rfl, rfl⟩
    · rcases hdec : Unmarshal (storeStruct StatusUpdate.setField) payload ⟨"", ""⟩ with
        ⟨u, ok⟩
      rw [apply_update_job_status_eq f logEntry payload u ok hc hdec]
      cases ok
      · exact ⟨rfl, rfl⟩
      · cases f.PrintJobs.lookup u.JobID <;> exact ⟨rfl, rfl⟩
  · rcases apply_cases f logEntry with h | ⟨p, h⟩ | ⟨id, h⟩ | ⟨fl, h⟩ | ⟨j, h⟩ |
      ⟨id, s, job, _, h⟩ | ⟨id, w, fl, _, h⟩ <;> rw [h] <;>
      exact ⟨fun k hk => by first | exact hk | exact Finmap.mem_insert.mpr (Or.inr hk),
        fun k hk => by first | exact hk | exact Finmap.mem_insert.mpr (Or.inr hk)⟩

/-- C18 at a concrete input: deleting printer `p1` leaves the job `j1` that
references it, and the spool, as they were. -/
theorem apply_frame_witness :
    sampleState.Printers.lookup "p1" = some (printer "p1") ∧
      (sampleState.Apply (deleteEntry "p1")).1.Printers.lookup "p1" = none ∧
      (sampleState.Apply (deleteEntry "p1")).1.PrintJobs.lookup "j1" = some (job1 "Queued") ∧
      (job1 "Queued").PrinterID = "p1" ∧
      (sampleState.Apply (deleteEntry "p1")).1.Filaments = sampleState.Filaments ∧
      (sampleState.Apply (deleteEntry "p1")).1.PrintJobs = sampleState.PrintJobs :=
  ⟨by decide, by decide, by decide, rfl,
    ((apply_frame sampleState (deleteEntry "p1")).1 (.json (.str "p1"))
      (Or.inr ⟨_, rfl, rfl, rfl⟩)).1,
    ((apply_frame sampleState (deleteEntry "p1")).1 (.json (.str "p1"))
      (Or.inr ⟨_, rfl, rfl, rfl⟩)).2⟩

/-! ## Closed forms of the store and of the handlers -/

theorem applyCommand_leader (s : RaftStore) (op : String) (payload : Json)
    (h : s.raft.leader = true) :
    s.applyCommand op payload =
      (⟨{ s.raft with log := s.raft.log ++ [commandBytes op payload] },
        (s.fsm.Apply (commandBytes op payload)).1⟩, true) := by
  unfold RaftStore.applyCommand
  simp [h]

theorem applyCommand_follower (s : RaftStore) (op : String) (payload : Json)
    (h : s.raft.leader = false) : s.applyCommand op payload = (s, false) := by
  unfold RaftStore.applyCommand
  simp [h]

theorem unmarshal_reduction (id : String) (w : Int) (h : InRange w) :
    Unmarshal (storeStruct Reduction.setField)
        (.json (.obj [("filament_id", .str id), ("weight", .num w)])) ⟨"", 0⟩ =
      (⟨id, w⟩, true) := by
  have h1 : minInt ≤ w ∧ w ≤ maxInt := h
  simp +decide [Unmarshal, storeStruct, Reduction.setField, storeString, storeInt, h1]

theorem unmarshal_statusUpdate (id s : String) :
    Unmarshal (storeStruct StatusUpdate.setField)
        (.json (.obj [("job_id", .str id), ("status", .str s)])) ⟨"", ""⟩ =
      (⟨id, s⟩, true) := rfl

/-- The state after `ReduceFilamentWeight(id, w)` has been applied. -/
theorem apply_reduce_entry (f : FSM) (id : String) (w : Int) (h : InRange w) :
    (f.Apply (commandBytes "REDUCE_FILAMENT"
        (.obj [("filament_id", .str id), ("weight", .num w)]))).1 =
      match f.Filaments.lookup id with
      | some fl =>
        { f with
          Filaments := f.Filaments.insert id
            { fl with RemainingWeightInGrams := max 0 (intSub fl.RemainingWeightInGrams w) } }
      | none => f := by
  rw [apply_reduce_filament_eq f _ _ id w (commandBytes_isCommand _ _)
    (unmarshal_reduction id w h)]
  cases f.Filaments.lookup id <;> rfl

/-- The state after `UpdateJobStatus(id, s)` has been applied. -/
theorem apply_status_entry (f : FSM) (id s : String) :
    (f.Apply (commandBytes "UPDATE_JOB_STATUS"
        (.obj [("job_id", .str id), ("status", .str s)]))).1 =
      match f.PrintJobs.lookup id with
      | some job => { f with PrintJobs := f.PrintJobs.insert id { job with Status := s } }
      | none => f := by
  rw [apply_update_job_status_eq f _ _ ⟨id, s⟩ true (commandBytes_isCommand _ _)
    (unmarshal_statusUpdate id s)]
  simp only [Bool.true_eq_false, if_false]
  cases f.PrintJobs.lookup id <;> rfl

/-- A status request that passes validation: the handler submits the
reduction when the new status is `Done`, then the status update, and answers
500 as soon as one of the two fails. -/
theorem handleUpdateJobStatus_valid (store : RaftStore) (jobID : String) (body : Bytes)
    (st : String) (job : PrintJob)
    (hb : ShouldBindJSON (storeStruct StatusRequest.setField) body ⟨""⟩ = (⟨st⟩, true))
    (hj : store.GetPrintJob jobID = some job)
    (hv : isValidStatusTransition job.Status st = true) :
    handleUpdateJobStatus store jobID body =
      if (if st = "Done" then store.ReduceFilamentWeight job.FilamentID job.PrintWeightInGrams
          else (store, true)).2 = false then
        ((if st = "Done" then store.ReduceFilamentWeight job.FilamentID job.PrintWeightInGrams
          else (store, true)).1, 500)
      else if ((if st = "Done" then
            store.ReduceFilamentWeight job.FilamentID job.PrintWeightInGrams
          else (store, true)).1.UpdateJobStatus jobID st).2 = false then
        (((if st = "Done" then store.ReduceFilamentWeight job.FilamentID job.PrintWeightInGrams
          else (store, true)).1.UpdateJobStatus jobID st).1, 500)
      else
        (((if st = "Done" then store.ReduceFilamentWeight job.FilamentID job.PrintWeightInGrams
          else (store, true)).1.UpdateJobStatus jobID st).1, 200) := by
  unfold handleUpdateJobStatus
  rw [hb]
  dsimp only
  rw [hj]
  simp only [hv, Bool.true_eq_false, if_false]

/-- `applyCommand` fails and leaves the store as it was, or appends the entry
to the log and applies it. -/
theorem applyCommand_cases (s : RaftStore) (op : String) (payload : Json) :
    s.applyCommand op payload = (s, false) ∨
      s.applyCommand op payload =
        (⟨{ s.raft with log := s.raft.log ++ [commandBytes op payload] },
          (s.fsm.Apply (commandBytes op payload)).1⟩, true) := by
  cases hl : s.raft.leader with
  | false => exact Or.inl (applyCommand_follower s op payload hl)
  | true => exact Or.inr (applyCommand_leader s op payload hl)

/-- What a request for `Done` that is answered 200 leaves in the state
machine: the reduction of the filament of the job, then the new status. -/
theorem handleUpdateJobStatus_done (store : RaftStore) (jobID : String) (body : Bytes)
    (job : PrintJob)
    (hb : ShouldBindJSON (storeStruct StatusRequest.setField) body ⟨""⟩ = (⟨"Done"⟩, true))
    (hj : store.GetPrintJob jobID = some job)
    (hv : isValidStatusTransition job.Status "Done" = true)
    (hw : InRange job.PrintWeightInGrams)
    (h200 : (handleUpdateJobStatus store jobID body).2 = 200) :
    (handleUpdateJobStatus store jobID body).1.fsm =
      { store.fsm with
        Filaments :=
          match store.fsm.Filaments.lookup job.FilamentID with
          | some fl =>
            store.fsm.Filaments.insert job.FilamentID
              { fl with
                RemainingWeightInGrams :=
                  max 0 (intSub fl.RemainingWeightInGrams job.PrintWeightInGrams) }
          | none => store.fsm.Filaments
        PrintJobs := store.fsm.PrintJobs.insert jobID { job with Status := "Done" } } := by
  have hj2 : store.fsm.PrintJobs.lookup jobID = some job := hj
  rw [handleUpdateJobStatus_valid store jobID body "Done" job hb hj hv] at h200 ⊢
  simp only [if_true, RaftStore.ReduceFilamentWeight, RaftStore.UpdateJobStatus] at h200 ⊢
  rcases applyCommand_cases store "REDUCE_FILAMENT"
      (.obj [("filament_id", .str job.FilamentID), ("weight", .num job.PrintWeightInGrams)])
    with h1 | h1
  · rw [h1] at h200
    simp at h200
  · rw [h1] at h200 ⊢
    simp only [Bool.true_eq_false, if_false] at h200 ⊢
    rcases applyCommand_cases
        ⟨{ store.raft with
            log := store.raft.log ++ [commandBytes "REDUCE_FILAMENT"
              (.obj [("filament_id", .str job.FilamentID),
                ("weight", .num job.PrintWeightInGrams)])] },
          (store.fsm.Apply (commandBytes "REDUCE_FILAMENT"
            (.obj [("filament_id", .str job.FilamentID),
              ("weight", .num job.PrintWeightInGrams)]))).1⟩
        "UPDATE_JOB_STATUS" (.obj [("job_id", .str jobID), ("status", .str "Done")])
      with h2 | h2
    · rw [h2] at h200
      simp at h200
    · rw [h2]
      simp only [Bool.true_eq_false, if_false]
      rw [apply_status_entry, apply_reduce_entry _ _ _ hw]
      cases hf : store.fsm.Filaments.lookup job.FilamentID with
      | none => simp [hj2]
      | some fl => simp [hj2]

/-- What a request for a status other than `Done` leaves in the state machine:
nothing new when the submission fails, the new status otherwise. -/
theorem handleUpdateJobStatus_other (store : RaftStore) (jobID : String) (body : Bytes)
    (st : String) (job : PrintJob)
    (hb : ShouldBindJSON (storeStruct StatusRequest.setField) body ⟨""⟩ = (⟨st⟩, true))
    (hj : store.GetPrintJob jobID = some job)
    (hv : isValidStatusTransition job.Status st = true)
    (hd : st ≠ "Done") :
    handleUpdateJobStatus store jobID body = (store, 500) ∨
      ((handleUpdateJobStatus store jobID body).2 = 200 ∧
        (handleUpdateJobStatus store jobID body).1.fsm =
          { store.fsm with
            PrintJobs := store.fsm.PrintJobs.insert jobID { job with Status := st } }) := by
  have hj2 : store.fsm.PrintJobs.lookup jobID = some job := hj
  rw [handleUpdateJobStatus_valid store jobID body st job hb hj hv]
  simp only [hd, if_false, RaftStore.UpdateJobStatus, Bool.true_eq_false]
  rcases applyCommand_cases store "UPDATE_JOB_STATUS"
      (.obj [("job_id", .str jobID), ("status", .str st)]) with h1 | h1
  · rw [h1]
    exact Or.inl (by simp)
  · rw [h1]
    refine Or.inr ⟨by simp, ?_⟩
    simp only [Bool.true_eq_false, if_false]
    rw [apply_status_entry, hj2]

/-- A status request is answered with an error, the store left as it was, or
it passes validation, for an existing job and a transition of the table, and
is answered 200 or 500. -/
theorem handleUpdateJobStatus_cases (store : RaftStore) (jobID : String) (body : Bytes) :
    (∃ c, handleUpdateJobStatus store jobID body = (store, c) ∧ c ≠ 200) ∨
      ∃ (st : String) (job : PrintJob),
        ShouldBindJSON (storeStruct StatusRequest.setField) body ⟨""⟩ = (⟨st⟩, true) ∧
          store.GetPrintJob jobID = some job ∧
          isValidStatusTransition job.Status st = true ∧
          ((handleUpdateJobStatus store jobID body).2 = 200 ∨
            (handleUpdateJobStatus store jobID body).2 = 500) := by
  rcases hb : ShouldBindJSON (storeStruct StatusRequest.setField) body ⟨""⟩ with ⟨⟨st⟩, ok⟩
  cases ok with
  | false =>
    refine Or.inl ⟨400, ?_, by decide⟩
    unfold handleUpdateJobStatus
    rw [hb]
    rfl
  | true =>
    cases hj : store.GetPrintJob jobID with
    | none =>
      refine Or.inl ⟨404, ?_, by decide⟩
      unfold handleUpdateJobStatus
      rw [hb]
      dsimp only
      rw [hj]
      rfl
    | some job =>
      cases hv : isValidStatusTransition job.Status st with
      | false =>
        refine Or.inl ⟨400, ?_, by decide⟩
        unfold handleUpdateJobStatus
        rw [hb]
        dsimp only
        rw [hj]
        simp [hv]
      | true =>
        refine Or.inr ⟨st, job, rfl, rfl, hv, ?_⟩
        rw [handleUpdateJobStatus_valid store jobID body st job hb hj hv]
        split_ifs <;> first | exact Or.inl rfl | exact Or.inr rfl

/-! ## C14: completing a job -/

/-- C14, as stated, fails on 64-bit overflow. The handler has admitted job `j1`
with a print weight of -9223372036854775808 g on the spool `f1`, which has
1000 g remaining, and the job is `Running`; the request for `Done` is served
and leaves 0 g remaining, where `max(0, r - w)` is 9223372036854776808. -/
theorem complete_job_overflow_counterexample :
    (shopRunning (-9223372036854775808)).GetPrintJob "j1" =
        some ⟨"j1", "p1", "f1", "a.gcode", -9223372036854775808, "Running"⟩ ∧
      (shopRunning (-9223372036854775808)).GetFilament "f1" = some (spool 1000) ∧
      (handleUpdateJobStatus (shopRunning (-9223372036854775808)) "j1"
        (statusBody "Done")).2 = 200 ∧
      (handleUpdateJobStatus (shopRunning (-9223372036854775808)) "j1"
        (statusBody "Done")).1.fsm.Filaments.lookup "f1" = some (spool 0) ∧
      max (0 : Int) (1000 - -9223372036854775808) = 9223372036854776808 := by
  decide

/-- C14, amended. When a job `Running` with print weight `w` sits on an
existing filament with `r` grams remaining, a request for `Done` that is
served with 200 leaves that filament with `max(0, r - w)` grams, the
subtraction taken in 64-bit `int` arithmetic (it is `max(0, r - w)` whenever
`r - w` is in the range of `int`), leaves the job with status `Done`, and
leaves every other filament, every other job and the printers unchanged. A
request for any status other than `Done` changes no filament. -/
theorem complete_job (store : RaftStore) (jobID : String) :
    (∀ (body : Bytes) (job : PrintJob) (fl : Filament),
      ShouldBindJSON (storeStruct StatusRequest.setField) body ⟨""⟩ = (⟨"Done"⟩, true) →
      store.GetPrintJob jobID = some job → job.Status = "Running" →
      store.GetFilament job.FilamentID = some fl → InRange job.PrintWeightInGrams →
      (handleUpdateJobStatus store jobID body).2 = 200 →
      (handleUpdateJobStatus store jobID body).1.fsm.Filaments.lookup job.FilamentID =
          some { fl with
            RemainingWeightInGrams :=
              max 0 (wrapInt (fl.RemainingWeightInGrams - job.PrintWeightInGrams)) } ∧
        (InRange (fl.RemainingWeightInGrams - job.PrintWeightInGrams) →
          (handleUpdateJobStatus store jobID body).1.fsm.Filaments.lookup job.FilamentID =
            some { fl with
              RemainingWeightInGrams :=
                max 0 (fl.RemainingWeightInGrams - job.PrintWeightInGrams) }) ∧
        (∀ k, k ≠ job.FilamentID →
          (handleUpdateJobStatus store jobID body).1.fsm.Filaments.lookup k =
            store.fsm.Filaments.lookup k) ∧
        (handleUpdateJobStatus store jobID body).1.fsm.PrintJobs.lookup jobID =
          some { job with Status := "Done" } ∧
        (∀ k, k ≠ jobID →
          (handleUpdateJobStatus store jobID body).1.fsm.PrintJobs.lookup k =
            store.fsm.PrintJobs.lookup k) ∧
        (handleUpdateJobStatus store jobID body).1.fsm.Printers = store.fsm.Printers) ∧
    (∀ body : Bytes,
      (ShouldBindJSON (storeStruct StatusRequest.setField) body ⟨""⟩).1.Status ≠ "Done" →
      (handleUpdateJobStatus store jobID body).1.fsm.Filaments = store.fsm.Filaments) := by
  constructor
  · intro body job fl hb hj hs hf hw h200
    have hv : isValidStatusTransition job.Status "Done" = true := by rw [hs]; decide
    have hf2 : store.fsm.Filaments.lookup job.FilamentID = some fl := hf
    rw [handleUpdateJobStatus_done store jobID body job hb hj hv hw h200, hf2]
    have key : (Finmap.insert job.FilamentID
        ({ fl with
          RemainingWeightInGrams :=
            max 0 (intSub fl.RemainingWeightInGrams job.PrintWeightInGrams) } : Filament)
        store.fsm.Filaments).lookup job.FilamentID =
        some { fl with
          RemainingWeightInGrams :=
            max 0 (wrapInt (fl.RemainingWeightInGrams - job.PrintWeightInGrams)) } := by
      rw [Finmap.lookup_insert]; rfl
    refine ⟨key, fun hr => ?_, fun k hk => Finmap.lookup_insert_of_ne _ hk,
      Finmap.lookup_insert _, fun k hk => Finmap.lookup_insert_of_ne _ hk, rfl⟩
    have key2 := key
    rw [wrapInt_of_inRange _ hr] at key2
    exact key2
  · intro body hne
    rcases handleUpdateJobStatus_cases store jobID body with
      ⟨c, h, _⟩ | ⟨st, job, hb, hj, hv, _⟩
    · rw [h]
    · rw [hb] at hne
      rcases handleUpdateJobStatus_other store jobID body st job hb hj hv hne with h | ⟨_, h⟩
      · rw [h]
      · rw [h]

/-- The amended C14 on the scenario of the specification: job `j1` of 400 g is
`Running` on the spool `f1` with 1000 g remaining; the request for `Done`
leaves 600 g and the job `Done`. Moving the queued job to `Running` had left
the spool as it was. -/
theorem complete_job_witness :
    (shopRunning 400).GetPrintJob "j1" = some (job1 "Running") ∧
      (shopRunning 400).GetFilament "f1" = some (spool 1000) ∧
      (handleUpdateJobStatus (shopRunning 400) "j1" (statusBody "Done")).2 = 200 ∧
      InRange (1000 - 400) ∧
      (handleUpdateJobStatus (shopRunning 400) "j1"
        (statusBody "Done")).1.fsm.Filaments.lookup "f1" = some (spool 600) ∧
      (handleUpdateJobStatus (shopRunning 400) "j1"
        (statusBody "Done")).1.fsm.PrintJobs.lookup "j1" = some (job1 "Done") ∧
      (handleUpdateJobStatus (shopWithJob 400) "j1" (statusBody "Running")).1.fsm.Filaments =
        (shopWithJob 400).fsm.Filaments :=
  ⟨by decide, by decide, by decide, by decide,
    ((complete_job (shopRunning 400) "j1").1 (statusBody "Done") (job1 "Running")
      (spool 1000) (by decide) (by decide) rfl (by decide) (by decide) (by decide)).2.1
      (by decide),
    ((complete_job (shopRunning 400) "j1").1 (statusBody "Done") (job1 "Running")
      (spool 1000) (by decide) (by decide) rfl (by decide) (by decide)
      (by decide)).2.2.2.1,
    (complete_job (shopWithJob 400) "j1").2 (statusBody "Running") (by decide)⟩

/-! ## Closed form of job creation -/

theorem entries_of_lookup_none {α : Type} (m : GoMap α) (k : String) (v : α)
    (h : m.lookup k = none) : (m.insert k v).entries = ⟨k, v⟩ ::ₘ m.entries :=
  Finmap.insert_entries_of_neg (Finmap.lookup_eq_none.mp h)

theorem insert_erase_of_lookup {α : Type} (m : GoMap α) (k : String) (v : α)
    (h : m.lookup k = some v) : (m.erase k).insert k v = m := by
  apply Finmap.ext_lookup
  intro x
  by_cases e : x = k
  · subst e; rw [Finmap.lookup_insert, h]
  · rw [Finmap.lookup_insert_of_ne _ e, Finmap.lookup_erase_ne e]

theorem usage_insert_fresh (m : GoMap PrintJob) (k : String) (v : PrintJob) (fid : String)
    (h : m.lookup k = none) : usage (m.insert k v) fid = weightOn fid v + usage m fid := by
  unfold usage
  rw [entries_of_lookup_none m k v h]
  simp

theorem usage_nonneg (m : GoMap PrintJob) (fid : String)
    (h : ∀ k j, m.lookup k = some j → 0 ≤ weightOn fid j) : 0 ≤ usage m fid := by
  unfold usage
  apply Multiset.sum_nonneg
  intro x hx
  obtain ⟨kv, hkv, rfl⟩ := Multiset.mem_map.mp hx
  exact h kv.1 kv.2 (Finmap.lookup_eq_some_iff.mpr (by cases kv; exact hkv))

theorem weightOn_le_usage (m : GoMap PrintJob) (fid k : String) (job : PrintJob)
    (hl : m.lookup k = some job)
    (h : ∀ k j, m.lookup k = some j → 0 ≤ weightOn fid j) :
    weightOn fid job ≤ usage m fid := by
  have hfresh : (m.erase k).lookup k = none := Finmap.lookup_erase _ _
  have h2 : usage m fid = weightOn fid job + usage (m.erase k) fid := by
    rw [← usage_insert_fresh _ _ _ _ hfresh, insert_erase_of_lookup m k job hl]
  have h3 : 0 ≤ usage (m.erase k) fid := by
    apply usage_nonneg
    intro k' j hk'
    by_cases e : k' = k
    · subst e; rw [Finmap.lookup_erase] at hk'; cases hk'
    · rw [Finmap.lookup_erase_ne e] at hk'; exact h k' j hk'
  omega

/-! ## The invariant kept by admissible requests -/

end Raft3D
